import Mathlib

/-!
Shallow embedding of the UBI layer from src/lib/src/ubi.c, src/lib/src/ubi_utils.c
and their headers.

Modelling conventions, kept uniform through the file:

* Machine integers become Nat.  The 64-bit sqnum and 32-bit erase counters are
  modelled as unbounded Nat; no claim below depends on wrap-around behaviour.
* Red-black trees (Zephyr rbtree with ubi_rbt_cmp comparing the 32-bit key)
  become key-sorted association lists of pairs.  insertSorted places an entry
  after existing entries with an equal key, matching the source comparator
  which sends equal keys to the right subtree; rb_get_min is the list head of
  the sorted representation.  The explicit size fields of the C structures
  (vols_size, free_pebs_size, ...) always mirror the container size in the
  source, so the model uses list lengths directly.
* The flash partition is modelled at two layers that the source never mixes:
  a header layer (Media.peb), recording for each physical erase block the
  outcome of reading its EC header (none = magic/CRC validation fails) and of
  reading its VID header (erased = all 0xFF bytes, invalid = present but
  magic/CRC validation fails, valid h = decodes to h), and a raw byte layer
  (Media.mem) used by the LEB payload read/write adapters.  CRC-32 itself is
  external arithmetic the control flow only observes through these outcomes.
* Flash driver faults that the claims mention are injected through explicit
  fault records (EraseFaults, WriteFaults); heap allocation and the mutex are
  modelled as always succeeding, as no claim concerns allocation failure or
  concurrency interleavings.
* k_free on a node that is still linked in an rbtree (the erase_peb failure
  paths call move_to_bad_blocks and k_free without rb_remove) leaves the node
  reachable in the tree, so the model keeps the entry in the list.
* The uninitialised value field of the rbt item inserted in mount step 4.4.7.2
  (the item is k_malloc-ed and only its key is assigned) is modelled by an
  explicit junk parameter threaded through the scan.
-/

namespace Ubi

/-! Constants from ubi_utils.h. -/

def UBI_EC_HDR_SIZE : Nat := 16
def UBI_VID_HDR_SIZE : Nat := 32
def WRITE_BLOCK_SIZE_ALIGNMENT : Nat := 16
def UBI_DEV_HDR_NR_OF_RES_PEBS : Nat := 2

/-- Maximum payload bytes per LEB: erase_block_size minus both per-PEB headers. -/
def lebMax (ebs : Nat) : Nat := ebs - UBI_EC_HDR_SIZE - UBI_VID_HDR_SIZE

/-! Error returns (negated errno values from the source). -/

def retEnoent : Int := -2
def retEio : Int := -5
def retEnomem : Int := -12
def retEacces : Int := -13
def retEinval : Int := -22
def retEnospc : Int := -28
def retEbadmsg : Int := -74
def retEcanceled : Int := -125

/-! On-media header values as the layer observes them. -/

/-- Decoded VID header fields used by the implementation (struct ubi_vid_hdr). -/
structure VidHdr where
  lnum : Nat
  vol_id : Nat
  sqnum : Nat
  data_size : Nat
deriving Repr, DecidableEq

/-- Outcome of looking at the VID header area of a PEB. -/
inductive VidState where
  | erased
  | invalid
  | valid (h : VidHdr)
deriving Repr, DecidableEq

/-- One PEB of the media: EC header read outcome and VID header area state. -/
structure PebM where
  ec : Option Nat
  vid : VidState
deriving Repr, DecidableEq

/-- The flash partition: per-PEB header layer plus raw payload bytes. -/
structure Media where
  peb : Nat → PebM
  mem : Nat → Nat

/-- On-media volume table entry (struct ubi_vol_hdr) as parsed from the banks. -/
structure VolHdr where
  vol_type : Nat
  vol_id : Nat
  lebs_count : Nat
  name : List Nat
deriving Repr, DecidableEq

/-- Dual-bank metadata content; the transactor keeps both banks identical. -/
structure Banks where
  revision : Nat
  volhdrs : List VolHdr
deriving Repr, DecidableEq

/-! In-memory entities (struct ubi_volume, struct ubi_device). -/

structure VolumeConfig where
  name : List Nat
  vtype : Nat
  leb_count : Nat
deriving Repr, DecidableEq

structure Volume where
  vol_idx : Nat
  vol_id : Nat
  cfg : VolumeConfig
  eba : List (Nat × Nat)
deriving Repr, DecidableEq

structure DeviceState where
  vols : List Volume
  free_pebs : List (Nat × Nat)
  dirty_pebs : List (Nat × Nat)
  bad_pebs : List (Nat × Nat)
  global_seqnr : Nat
  vols_seqnr : Nat
deriving Repr, DecidableEq

/-! Association-list operations standing for the rbtree operations. -/

/-- rb_insert with ubi_rbt_cmp: keep the list sorted by key, equal keys go after. -/
def insertSorted (e : Nat × Nat) : List (Nat × Nat) → List (Nat × Nat)
  | [] => [e]
  | x :: xs => if e.1 < x.1 then e :: x :: xs else x :: insertSorted e xs

/-- ubi_rbt_search: first entry with the given key. -/
def lookupKey (k : Nat) : List (Nat × Nat) → Option Nat
  | [] => none
  | x :: xs => if x.1 = k then some x.2 else lookupKey k xs

/-- rb_remove of the node found by ubi_rbt_search: drop the first entry with the key. -/
def eraseKey (k : Nat) : List (Nat × Nat) → List (Nat × Nat)
  | [] => []
  | x :: xs => if x.1 = k then xs else x :: eraseKey k xs

/-- ubi_rbt_search in the vols tree (key is vol_id). -/
def findVol (vol_id : Nat) : List Volume → Option Volume
  | [] => none
  | v :: vs => if v.vol_id = vol_id then some v else findVol vol_id vs

/-- In-place mutation of the volume found by ubi_rbt_search. -/
def updateVol (vol_id : Nat) (f : Volume → Volume) : List Volume → List Volume
  | [] => []
  | v :: vs => if v.vol_id = vol_id then f v :: vs else v :: updateVol vol_id f vs

/-! Raw byte layer helpers. -/

/-- Byte i of a buffer, zero past the end (the adapters never read past the end). -/
def byteAt (l : List Nat) (i : Nat) : Nat := l.getD i 0

/-- flash_area_write of a contiguous buffer at a byte address. -/
def writeBytes (mem : Nat → Nat) (addr : Nat) (data : List Nat) : Nat → Nat :=
  fun a => if addr ≤ a ∧ a - addr < data.length then byteAt data (a - addr) else mem a

/-- flash_area_read of len bytes at a byte address. -/
def readBytes (mem : Nat → Nat) (addr len : Nat) : List Nat :=
  (List.range len).map (fun i => mem (addr + i))

/-! Header accessors over the media (ubi_utils.c). -/

/-- ubi_ec_hdr_read: bounds checks, then the EC header validation outcome. -/
def ecHdrRead (nr : Nat) (media : Media) (pnum : Nat) : Except Int Nat :=
  if nr < pnum ∨ pnum = 0 ∨ pnum = 1 then Except.error retEinval
  else
    match (media.peb pnum).ec with
    | some e => Except.ok e
    | none => Except.error retEbadmsg

/-- ubi_vid_hdr_read.  Returns (ret, header area as read, whether the flash
area handle was closed before returning).  On a failed magic/CRC check the
source returns -EBADMSG directly, skipping flash_area_close (the goto exit
after the return statement is dead code), hence the false flag there. -/
def vidHdrRead (nr : Nat) (media : Media) (pnum : Nat) (check : Bool) :
    Int × VidState × Bool :=
  if nr < pnum ∨ pnum = 0 ∨ pnum = 1 then (retEinval, VidState.erased, true)
  else
    let raw := (media.peb pnum).vid
    if check then
      match raw with
      | VidState.valid h => (0, VidState.valid h, true)
      | s => (retEbadmsg, s, false)
    else (0, raw, true)

/-- Overwrite the VID header area of one PEB, leaving its EC header alone. -/
def vidSet (media : Media) (pnum : Nat) (h : VidHdr) : Media :=
  { media with
    peb := fun q =>
      if q = pnum then { ec := (media.peb pnum).ec, vid := VidState.valid h }
      else media.peb q }

/-- ubi_vid_hdr_write: bounds checks, then place a valid VID header. -/
def vidHdrWrite (nr : Nat) (media : Media) (pnum : Nat) (h : VidHdr) : Media × Int :=
  if nr < pnum ∨ pnum = 0 ∨ pnum = 1 then (media, retEinval)
  else (vidSet media pnum h, 0)

/-- flash_area_erase of one whole PEB: header area all 0xFF, payload all 0xFF. -/
def eraseBlock (media : Media) (ebs pnum : Nat) : Media :=
  { peb := fun q => if q = pnum then { ec := none, vid := VidState.erased } else media.peb q,
    mem := fun a => if pnum * ebs ≤ a ∧ a < (pnum + 1) * ebs then 255 else media.mem a }

/-- ubi_ec_hdr_write after a successful erase: a fresh valid EC header. -/
def ecSet (media : Media) (pnum e : Nat) : Media :=
  { media with
    peb := fun q =>
      if q = pnum then { ec := some e, vid := (media.peb pnum).vid } else media.peb q }

/-! LEB payload adapters (ubi_leb_data_write / ubi_leb_data_read). -/

/-- Byte offset of the payload area of a PEB. -/
def lebDataOff (ebs pnum : Nat) : Nat := pnum * ebs + UBI_EC_HDR_SIZE + UBI_VID_HDR_SIZE

/-- ubi_leb_data_write.  When the length is not a multiple of the 16-byte
write alignment the source stages the tail into a zero-filled buffer. -/
def lebDataWrite (nr ebs : Nat) (media : Media) (pnum : Nat) (buf : List Nat) :
    Media × Int :=
  if buf.length = 0 then (media, retEinval)
  else if nr < pnum ∨ pnum = 0 ∨ pnum = 1 then (media, retEinval)
  else if lebMax ebs < buf.length then (media, retEnospc)
  else
    let off := lebDataOff ebs pnum
    let len := buf.length
    if len % WRITE_BLOCK_SIZE_ALIGNMENT = 0 then
      ({ media with mem := writeBytes media.mem off buf }, 0)
    else if len < WRITE_BLOCK_SIZE_ALIGNMENT then
      ({ media with
         mem := writeBytes media.mem off
           (buf ++ List.replicate (WRITE_BLOCK_SIZE_ALIGNMENT - len) 0) }, 0)
    else
      let left := len % WRITE_BLOCK_SIZE_ALIGNMENT
      let headPart := buf.take (len - left)
      let tailPart := buf.drop (len - left) ++
        List.replicate (WRITE_BLOCK_SIZE_ALIGNMENT - left) 0
      ({ media with
         mem := writeBytes (writeBytes media.mem off headPart)
           (off + (len - left)) tailPart }, 0)

/-- ubi_leb_data_read. -/
def lebDataRead (nr ebs : Nat) (media : Media) (pnum off len : Nat) :
    Int × List Nat :=
  if len = 0 then (retEinval, [])
  else if nr < pnum ∨ pnum = 0 ∨ pnum = 1 then (retEinval, [])
  else if lebMax ebs < off + len then (retEnospc, [])
  else (0, readBytes media.mem (lebDataOff ebs pnum + off) len)

/-! LEB write engine (static leb_write in ubi.c). -/

/-- Injected driver faults for the VID header write and the payload write. -/
structure WriteFaults where
  vid_fail : Bool
  data_fail : Bool
deriving Repr, DecidableEq

/-- Second half of leb_write: take the least-EC free PEB, draw a sqnum from
global_seqnr, write the VID header and payload, then map lnum to the new PEB.
Mutations preceding a failing flash write persist, exactly as in the source. -/
def lebWriteAlloc (nr ebs : Nat) (wf : WriteFaults) (st : DeviceState) (media : Media)
    (vol_id lnum : Nat) (buf : Option (List Nat)) (len : Nat) :
    DeviceState × Media × Int :=
  match st.free_pebs with
  | [] => (st, media, retEio)
  | minE :: restFree =>
    let p_new := minE.2
    let st := { st with free_pebs := restFree }
    let vid : VidHdr :=
      { lnum := lnum, vol_id := vol_id, sqnum := st.global_seqnr, data_size := len }
    let st := { st with global_seqnr := st.global_seqnr + 1 }
    if wf.vid_fail then (st, media, retEio)
    else
      match vidHdrWrite nr media p_new vid with
      | (media, r) =>
        if r ≠ 0 then (st, media, r)
        else
          let finish : Media → DeviceState × Media × Int := fun m =>
            ({ st with
               vols := updateVol vol_id
                 (fun v => { v with eba := insertSorted (lnum, p_new) v.eba }) st.vols },
             m, 0)
          match buf with
          | some b =>
            if b.length > 0 then
              if wf.data_fail then (st, media, retEio)
              else
                match lebDataWrite nr ebs media p_new b with
                | (media, r2) => if r2 ≠ 0 then (st, media, r2) else finish media
            else finish media
          | none => finish media

/-- Length of an optional buffer, zero for the null buffer of leb_map. -/
def bufLen : Option (List Nat) → Nat
  | some b => b.length
  | none => 0

/-- static leb_write: validation, remap-on-write of an existing mapping into
the dirty pool, then allocation and the actual writes. -/
def lebWrite (nr ebs : Nat) (wf : WriteFaults) (st : DeviceState) (media : Media)
    (vol_id lnum : Nat) (buf : Option (List Nat)) : DeviceState × Media × Int :=
  if st.vols.length = 0 then (st, media, retEnoent)
  else
    match findVol vol_id st.vols with
    | none => (st, media, retEnoent)
    | some vol =>
      if lnum > vol.cfg.leb_count then (st, media, retEacces)
      else if st.free_pebs.length = 0 then (st, media, retEnospc)
      else
        let len := bufLen buf
        if len > lebMax ebs then (st, media, retEnospc)
        else
          match lookupKey lnum vol.eba with
          | some p_old =>
            match ecHdrRead nr media p_old with
            | Except.error e => (st, media, e)
            | Except.ok ec_old =>
              lebWriteAlloc nr ebs wf
                { st with
                  vols := updateVol vol_id
                    (fun v => { v with eba := eraseKey lnum v.eba }) st.vols,
                  dirty_pebs := insertSorted (ec_old, p_old) st.dirty_pebs }
                media vol_id lnum buf len
          | none => lebWriteAlloc nr ebs wf st media vol_id lnum buf len

/-! Public LEB API (ubi.c). -/

/-- ubi_leb_write: argument validation wrapper around leb_write. -/
def ubiLebWrite (nr ebs : Nat) (wf : WriteFaults) (st : DeviceState) (media : Media)
    (vol_id lnum : Nat) (buf : Option (List Nat)) : DeviceState × Media × Int :=
  match buf with
  | none => (st, media, retEinval)
  | some b =>
    if b.length = 0 then (st, media, retEinval)
    else lebWrite nr ebs wf st media vol_id lnum (some b)

/-- ubi_leb_map: leb_write with a null buffer and zero length. -/
def ubiLebMap (nr ebs : Nat) (wf : WriteFaults) (st : DeviceState) (media : Media)
    (vol_id lnum : Nat) : DeviceState × Media × Int :=
  lebWrite nr ebs wf st media vol_id lnum none

/-- ubi_leb_read. -/
def ubiLebRead (nr ebs : Nat) (st : DeviceState) (media : Media)
    (vol_id lnum off size : Nat) : Int × List Nat :=
  if size = 0 then (retEinval, [])
  else if st.vols.length = 0 then (retEnoent, [])
  else
    match findVol vol_id st.vols with
    | none => (retEnoent, [])
    | some vol =>
      if lnum > vol.cfg.leb_count then (retEacces, [])
      else
        match lookupKey lnum vol.eba with
        | none => (retEnoent, [])
        | some p => lebDataRead nr ebs media p off size

/-- ubi_leb_unmap: move the mapped PEB into the dirty pool keyed by its EC. -/
def ubiLebUnmap (nr : Nat) (st : DeviceState) (media : Media) (vol_id lnum : Nat) :
    DeviceState × Int :=
  if st.vols.length = 0 then (st, retEnoent)
  else
    match findVol vol_id st.vols with
    | none => (st, retEnoent)
    | some vol =>
      if lnum > vol.cfg.leb_count then (st, retEacces)
      else
        match lookupKey lnum vol.eba with
        | none => (st, retEacces)
        | some p =>
          match ecHdrRead nr media p with
          | Except.error e => (st, e)
          | Except.ok ec =>
            ({ st with
               vols := updateVol vol_id
                 (fun v => { v with eba := eraseKey lnum v.eba }) st.vols,
               dirty_pebs := insertSorted (ec, p) st.dirty_pebs }, 0)

/-- ubi_leb_is_mapped. -/
def ubiLebIsMapped (st : DeviceState) (vol_id lnum : Nat) : Int × Bool :=
  if st.vols.length = 0 then (retEnoent, false)
  else
    match findVol vol_id st.vols with
    | none => (retEnoent, false)
    | some vol =>
      if lnum > vol.cfg.leb_count then (retEacces, false)
      else (0, (lookupKey lnum vol.eba).isSome)

/-- ubi_leb_get_size: the data_size recorded in the mapped PEB VID header. -/
def ubiLebGetSize (nr : Nat) (st : DeviceState) (media : Media) (vol_id lnum : Nat) :
    Int × Nat :=
  if st.vols.length = 0 then (retEnoent, 0)
  else
    match findVol vol_id st.vols with
    | none => (retEnoent, 0)
    | some vol =>
      if lnum > vol.cfg.leb_count then (retEacces, 0)
      else
        match lookupKey lnum vol.eba with
        | none => (retEnoent, 0)
        | some p =>
          let rd := vidHdrRead nr media p true
          if rd.1 ≠ 0 then (rd.1, 0)
          else
            match rd.2.1 with
            | VidState.valid h => (0, h.data_size)
            | _ => (retEio, 0)

/-! Maintenance (ubi_device_erase_peb). -/

/-- Injected driver faults for the flash-area open, the erase and the EC
header rewrite inside ubi_device_erase_peb. -/
structure EraseFaults where
  open_fail : Bool
  erase_fail : Bool
  ec_write_fail : Bool
deriving Repr, DecidableEq

/-- ubi_device_erase_peb.  The failure paths call move_to_bad_blocks and
k_free the rbt node without rb_remove, so the entry stays linked in the dirty
tree; the function returns 0 on every path past argument validation. -/
def ubiDeviceErasePeb (nr ebs : Nat) (ef : EraseFaults) (st : DeviceState)
    (media : Media) : DeviceState × Media × Int :=
  match st.dirty_pebs with
  | [] => (st, media, 0)
  | entry :: restDirty =>
    let pnum := entry.2
    match ecHdrRead nr media pnum with
    | Except.error _ =>
      ({ st with bad_pebs := st.bad_pebs ++ [(pnum, entry.1)] }, media, 0)
    | Except.ok ec =>
      if ef.open_fail then (st, media, 0)
      else if ef.erase_fail then
        ({ st with bad_pebs := st.bad_pebs ++ [(pnum, entry.1)] }, media, 0)
      else
        let media := eraseBlock media ebs pnum
        if ef.ec_write_fail then
          ({ st with bad_pebs := st.bad_pebs ++ [(pnum, entry.1)] }, media, 0)
        else
          let media := ecSet media pnum (ec + 1)
          ({ st with
             dirty_pebs := restDirty,
             free_pebs := insertSorted (ec + 1, pnum) st.free_pebs }, media, 0)

/-! Mount-time scan (steps 3 and 4 of ubi_device_init). -/

/-- Usable PEB indices of the partition. -/
def pebRange (nr : Nat) : List Nat :=
  List.range' UBI_DEV_HDR_NR_OF_RES_PEBS (nr - UBI_DEV_HDR_NR_OF_RES_PEBS)

/-- Step 3: sum and count the valid erase counters over all usable PEBs. -/
def ecPass (nr : Nat) (media : Media) : Nat × Nat :=
  (pebRange nr).foldl
    (fun acc pnum =>
      match ecHdrRead nr media pnum with
      | Except.ok e => (acc.1 + e, acc.2 + 1)
      | Except.error _ => acc)
    (0, 0)

/-- Step 4 for one PEB.  junk stands for the uninitialised value field of the
rbt item inserted in branch 4.4.7.2, whose key the source sets to lnum and
then immediately overwrites with pnum. -/
def scanStep (nr ec_avg junk : Nat) (media : Media) (st : DeviceState) (pnum : Nat) :
    DeviceState :=
  match ecHdrRead nr media pnum with
  | Except.error _ =>
    { st with bad_pebs := st.bad_pebs ++ [(pnum, ec_avg)] }
  | Except.ok ec =>
    let raw := (vidHdrRead nr media pnum false).2.1
    if raw = VidState.erased then
      { st with free_pebs := insertSorted (ec, pnum) st.free_pebs }
    else
      let rd := vidHdrRead nr media pnum true
      if rd.1 ≠ 0 then
        { st with bad_pebs := st.bad_pebs ++ [(pnum, ec)] }
      else
        match rd.2.1 with
        | VidState.valid vid =>
          let st :=
            if vid.sqnum > st.global_seqnr then { st with global_seqnr := vid.sqnum }
            else st
          match findVol vid.vol_id st.vols with
          | none =>
            { st with dirty_pebs := insertSorted (ec, pnum) st.dirty_pebs }
          | some vol =>
            match lookupKey vid.lnum vol.eba with
            | none =>
              if vid.lnum ≥ vol.cfg.leb_count then
                { st with dirty_pebs := insertSorted (ec, pnum) st.dirty_pebs }
              else
                { st with
                  vols := updateVol vid.vol_id
                    (fun v => { v with eba := insertSorted (vid.lnum, pnum) v.eba })
                    st.vols }
            | some exist_pnum =>
              match ecHdrRead nr media exist_pnum with
              | Except.error _ =>
                { st with bad_pebs := st.bad_pebs ++ [(exist_pnum, ec_avg)] }
              | Except.ok exist_ec =>
                let erd := vidHdrRead nr media exist_pnum true
                if erd.1 ≠ 0 then
                  { st with bad_pebs := st.bad_pebs ++ [(exist_pnum, ec)] }
                else
                  match erd.2.1 with
                  | VidState.valid exist_vid =>
                    if vid.sqnum < exist_vid.sqnum then
                      { st with dirty_pebs := insertSorted (ec, pnum) st.dirty_pebs }
                    else
                      { st with
                        vols := updateVol vid.vol_id
                          (fun v =>
                            { v with
                              eba := insertSorted (pnum, junk)
                                (eraseKey vid.lnum v.eba) })
                          st.vols,
                        dirty_pebs :=
                          insertSorted (exist_ec, exist_pnum) st.dirty_pebs }
                  | _ => st
        | _ => st

/-- ubi_device_init on an already-mounted partition whose banks parse to the
given volume table: build the volume registry, run the EC pass (the source
divides ec_sum by ec_count here; Nat division yields 0 on a zero count where
the C expression is undefined behaviour), then the scan pass. -/
def deviceInitMounted (nr junk : Nat) (volhdrs : List VolHdr) (media : Media) :
    DeviceState :=
  let vols := volhdrs.enum.map (fun p =>
    { vol_idx := p.1, vol_id := p.2.vol_id,
      cfg := { name := p.2.name, vtype := p.2.vol_type, leb_count := p.2.lebs_count },
      eba := [] : Volume })
  let seq0 := volhdrs.foldl (fun acc h => if h.vol_id > acc then h.vol_id else acc) 0
  let vseq := if volhdrs.length > 0 then seq0 + 1 else seq0
  let ecp := ecPass nr media
  let ec_avg := ecp.1 / ecp.2
  let st0 : DeviceState :=
    { vols := vols, free_pebs := [], dirty_pebs := [], bad_pebs := [],
      global_seqnr := 0, vols_seqnr := vseq }
  (pebRange nr).foldl (scanStep nr ec_avg junk media) st0

/-! Volume creation (ubi_volume_create). -/

/-- strnlen over at most the 16 stored name bytes. -/
def strnlenBytes : List Nat → Nat
  | [] => 0
  | b :: bs => if b = 0 then 0 else strnlenBytes bs + 1

/-- The name comparison of ubi_volume_create: equal strnlen and equal bytes
up to that length. -/
def nameMatches (a b : List Nat) : Bool :=
  strnlenBytes a = strnlenBytes b &&
    a.take (strnlenBytes a) = b.take (strnlenBytes a)

/-- The existence scan at the top of ubi_volume_create. -/
def findByName (name : List Nat) : List Volume → Option Volume
  | [] => none
  | v :: vs => if nameMatches name v.cfg.name then some v else findByName name vs

/-- ubi_volume_create.  Returns the new state, the new bank content, the
return code, the assigned volume id and whether anything was written to
flash.  vols_seqnr is consumed when the new volume header is built, before
the append, exactly as in the source. -/
def ubiVolumeCreate (nr maxVols : Nat) (st : DeviceState) (banks : Banks)
    (cfg : VolumeConfig) : DeviceState × Banks × Int × Option Nat × Bool :=
  match findByName cfg.name st.vols with
  | some v => (st, banks, 0, some v.vol_id, false)
  | none =>
    let allocated := st.vols.foldl (fun acc v => acc + v.cfg.leb_count) 0
    let total := nr - UBI_DEV_HDR_NR_OF_RES_PEBS
    if cfg.leb_count > total - allocated then (st, banks, retEnospc, none, false)
    else
      let new_vol_id := st.vols_seqnr
      let st := { st with vols_seqnr := st.vols_seqnr + 1 }
      if banks.volhdrs.length ≥ maxVols then (st, banks, retEnospc, none, false)
      else
        let newHdr : VolHdr :=
          { vol_type := cfg.vtype, vol_id := new_vol_id,
            lebs_count := cfg.leb_count, name := cfg.name }
        let banks :=
          { revision := banks.revision + 1, volhdrs := banks.volhdrs ++ [newHdr] }
        let vol : Volume :=
          { vol_idx := banks.volhdrs.length - 1, vol_id := new_vol_id,
            cfg := cfg, eba := [] }
        ({ st with vols := st.vols ++ [vol] }, banks, 0, some new_vol_id, true)

/-! Pool accounting used by the partition invariant. -/

/-- All PEB indices stored as EBA values across the volume registry. -/
def ebaPnums : List Volume → List Nat
  | [] => []
  | v :: vs => v.eba.map (fun e => e.2) ++ ebaPnums vs

/-- Every place a usable PEB index can be recorded in the device state. -/
def allPebs (st : DeviceState) : List Nat :=
  ebaPnums st.vols ++ st.free_pebs.map (fun e => e.2) ++
    st.dirty_pebs.map (fun e => e.2) ++ st.bad_pebs.map (fun e => e.1)

/-- The PEB-partition invariant: each usable PEB index is recorded exactly
once across the EBA tables, the free pool, the dirty pool and the bad list. -/
def partInv (nr : Nat) (st : DeviceState) : Prop :=
  ∀ p, UBI_DEV_HDR_NR_OF_RES_PEBS ≤ p → p < nr → (allPebs st).count p = 1

/-- Every EBA key lies within its volume LEB count bound. -/
def ebaBound (st : DeviceState) : Prop :=
  ∀ v ∈ st.vols, ∀ e ∈ v.eba, e.1 ≤ v.cfg.leb_count

/-- All valid on-media sqnums lie strictly below the device global_seqnr. -/
def seqBound (st : DeviceState) (media : Media) : Prop :=
  ∀ q h, (media.peb q).vid = VidState.valid h → h.sqnum < st.global_seqnr

/-! Basic lemmas about the association-list operations. -/

theorem pair_eta_of_fst {x : Nat × Nat} {k : Nat} (h : x.1 = k) : x = (k, x.2) := by
  cases x
  simp_all

theorem insertSorted_perm (e : Nat × Nat) (l : List (Nat × Nat)) :
    List.Perm (insertSorted e l) (e :: l) := by
  induction l with
  | nil => simp [insertSorted]
  | cons x xs ih =>
    simp only [insertSorted]
    by_cases h : e.1 < x.1
    · simp [h]
    · simp only [h, if_false]
      exact (ih.cons x).trans (List.Perm.swap e x xs)

theorem lookupKey_mem {k q : Nat} {l : List (Nat × Nat)}
    (h : lookupKey k l = some q) : (k, q) ∈ l := by
  induction l with
  | nil => simp [lookupKey] at h
  | cons y ys ih =>
    simp only [lookupKey] at h
    by_cases hy : y.1 = k
    · simp only [hy, if_true, Option.some.injEq] at h
      subst h
      rw [← pair_eta_of_fst hy]
      exact List.mem_cons_self y ys
    · simp only [hy, if_false] at h
      exact List.mem_cons_of_mem y (ih h)

theorem lookupKey_eraseKey_perm {k p : Nat} {l : List (Nat × Nat)}
    (h : lookupKey k l = some p) : List.Perm l ((k, p) :: eraseKey k l) := by
  induction l with
  | nil => simp [lookupKey] at h
  | cons x xs ih =>
    simp only [lookupKey] at h
    by_cases hx : x.1 = k
    · simp only [hx, if_true, Option.some.injEq] at h
      subst h
      simp only [eraseKey, hx, if_true]
      rw [← pair_eta_of_fst hx]
    · simp only [hx, if_false] at h
      simp only [eraseKey, hx, if_false]
      exact ((ih h).cons x).trans (List.Perm.swap (k, p) x (eraseKey k xs))

theorem mem_insertSorted {a e : Nat × Nat} {l : List (Nat × Nat)}
    (h : a ∈ insertSorted e l) : a = e ∨ a ∈ l := by
  have := (insertSorted_perm e l).mem_iff.mp h
  simpa using this

theorem mem_eraseKey {a : Nat × Nat} {k : Nat} {l : List (Nat × Nat)}
    (h : a ∈ eraseKey k l) : a ∈ l := by
  induction l with
  | nil => simp [eraseKey] at h
  | cons x xs ih =>
    simp only [eraseKey] at h
    by_cases hx : x.1 = k
    · simp only [hx, if_true] at h
      exact List.mem_cons_of_mem x h
    · simp only [hx, if_false, List.mem_cons] at h
      rcases h with h | h
      · exact h ▸ List.mem_cons_self x xs
      · exact List.mem_cons_of_mem x (ih h)

theorem lookupKey_insertSorted_self {k p : Nat} {l : List (Nat × Nat)}
    (h : lookupKey k l = none) : lookupKey k (insertSorted (k, p) l) = some p := by
  induction l with
  | nil => simp [insertSorted, lookupKey]
  | cons x xs ih =>
    simp only [lookupKey] at h
    by_cases hx : x.1 = k
    · simp [hx] at h
    · simp only [hx, if_false] at h
      simp only [insertSorted]
      by_cases hlt : k < x.1
      · simp [hlt, lookupKey]
      · simp only [hlt, if_false, lookupKey, hx, if_false]
        exact ih h

theorem lookupKey_eraseKey_of_nodup {k : Nat} {l : List (Nat × Nat)}
    (hd : (l.map Prod.fst).Nodup) (h : (lookupKey k l).isSome) :
    lookupKey k (eraseKey k l) = none := by
  induction l with
  | nil => simp [lookupKey] at h
  | cons x xs ih =>
    simp only [List.map_cons, List.nodup_cons] at hd
    simp only [lookupKey] at h
    by_cases hx : x.1 = k
    · simp only [eraseKey, hx, if_true]
      cases hres : lookupKey k xs with
      | none => rfl
      | some q =>
        exfalso
        have hmem : k ∈ xs.map Prod.fst :=
          List.mem_map_of_mem Prod.fst (lookupKey_mem hres)
        rw [hx] at hd
        exact hd.1 hmem
    · simp only [eraseKey, hx, if_false, lookupKey]
      simp only [hx, if_false] at h
      exact ih hd.2 h

theorem findVol_mem {vol_id : Nat} {vs : List Volume} {v : Volume}
    (h : findVol vol_id vs = some v) : v ∈ vs := by
  induction vs with
  | nil => simp [findVol] at h
  | cons w ws ih =>
    simp only [findVol] at h
    by_cases hw : w.vol_id = vol_id
    · simp only [hw, if_true, Option.some.injEq] at h
      subst h
      exact List.mem_cons_self w ws
    · simp only [hw, if_false] at h
      exact List.mem_cons_of_mem w (ih h)

theorem findVol_ne_nil {vol_id : Nat} {vs : List Volume} {v : Volume}
    (h : findVol vol_id vs = some v) : vs.length ≠ 0 := by
  cases vs with
  | nil => simp [findVol] at h
  | cons w ws => simp

theorem length_updateVol (vol_id : Nat) (f : Volume → Volume) (vs : List Volume) :
    (updateVol vol_id f vs).length = vs.length := by
  induction vs with
  | nil => rfl
  | cons w ws ih =>
    simp only [updateVol]
    by_cases hw : w.vol_id = vol_id
    · simp [hw]
    · simp [hw, ih]

theorem findVol_updateVol {vol_id : Nat} {f : Volume → Volume}
    (hf : ∀ v, (f v).vol_id = v.vol_id) (vs : List Volume) :
    findVol vol_id (updateVol vol_id f vs) = (findVol vol_id vs).map f := by
  induction vs with
  | nil => rfl
  | cons w ws ih =>
    simp only [updateVol, findVol]
    by_cases hw : w.vol_id = vol_id
    · simp [findVol, hw, hf w]
    · simp [findVol, hw, ih]

theorem findVol_updateVol_some (vol_id : Nat) (f : Volume → Volume)
    (hf : ∀ w, (f w).vol_id = w.vol_id) {vs : List Volume} {v : Volume}
    (hv : findVol vol_id vs = some v) :
    findVol vol_id (updateVol vol_id f vs) = some (f v) := by
  rw [findVol_updateVol hf, hv]
  rfl

theorem mem_updateVol {w : Volume} {vol_id : Nat} {f : Volume → Volume}
    {vs : List Volume} (h : w ∈ updateVol vol_id f vs) :
    w ∈ vs ∨ ∃ v ∈ vs, w = f v := by
  induction vs with
  | nil => simp [updateVol] at h
  | cons x xs ih =>
    simp only [updateVol] at h
    by_cases hx : x.vol_id = vol_id
    · simp only [hx, if_true, List.mem_cons] at h
      rcases h with h | h
      · exact Or.inr ⟨x, List.mem_cons_self x xs, h⟩
      · exact Or.inl (List.mem_cons_of_mem x h)
    · simp only [hx, if_false, List.mem_cons] at h
      rcases h with h | h
      · exact Or.inl (h ▸ List.mem_cons_self x xs)
      · rcases ih h with h | ⟨v, hv, hw⟩
        · exact Or.inl (List.mem_cons_of_mem x h)
        · exact Or.inr ⟨v, List.mem_cons_of_mem x hv, hw⟩

theorem ebaPnums_updateVol_perm {vol_id : Nat} {vs : List Volume} {v : Volume}
    (f : Volume → Volume) (h : findVol vol_id vs = some v) :
    List.Perm (ebaPnums (updateVol vol_id f vs) ++ v.eba.map (fun e => e.2))
      (ebaPnums vs ++ (f v).eba.map (fun e => e.2)) := by
  induction vs with
  | nil => simp [findVol] at h
  | cons w ws ih =>
    simp only [findVol] at h
    by_cases hw : w.vol_id = vol_id
    · simp only [hw, if_true, Option.some.injEq] at h
      subst h
      simp only [updateVol, hw, if_true, ebaPnums]
      have h1 : List.Perm
          (((f w).eba.map (fun e => e.2) ++ ebaPnums ws) ++ w.eba.map (fun e => e.2))
          ((f w).eba.map (fun e => e.2) ++ (ebaPnums ws ++ w.eba.map (fun e => e.2))) := by
        rw [List.append_assoc]
      have h2 : List.Perm
          ((f w).eba.map (fun e => e.2) ++ (ebaPnums ws ++ w.eba.map (fun e => e.2)))
          ((ebaPnums ws ++ w.eba.map (fun e => e.2)) ++ (f w).eba.map (fun e => e.2)) :=
        List.perm_append_comm
      have h3 : List.Perm
          ((ebaPnums ws ++ w.eba.map (fun e => e.2)) ++ (f w).eba.map (fun e => e.2))
          ((w.eba.map (fun e => e.2) ++ ebaPnums ws) ++ (f w).eba.map (fun e => e.2)) :=
        List.Perm.append_right _ List.perm_append_comm
      exact (h1.trans h2).trans h3
    · simp only [hw, if_false] at h
      simp only [updateVol, hw, if_false, ebaPnums]
      have h1 : List.Perm
          ((w.eba.map (fun e => e.2) ++ ebaPnums (updateVol vol_id f ws)) ++
            v.eba.map (fun e => e.2))
          (w.eba.map (fun e => e.2) ++
            (ebaPnums (updateVol vol_id f ws) ++ v.eba.map (fun e => e.2))) := by
        rw [List.append_assoc]
      have h2 : List.Perm
          (w.eba.map (fun e => e.2) ++
            (ebaPnums (updateVol vol_id f ws) ++ v.eba.map (fun e => e.2)))
          (w.eba.map (fun e => e.2) ++ (ebaPnums ws ++ (f v).eba.map (fun e => e.2))) :=
        List.Perm.append_left _ (ih h)
      have h3 : List.Perm
          (w.eba.map (fun e => e.2) ++ (ebaPnums ws ++ (f v).eba.map (fun e => e.2)))
          ((w.eba.map (fun e => e.2) ++ ebaPnums ws) ++ (f v).eba.map (fun e => e.2)) := by
        rw [List.append_assoc]
      exact (h1.trans h2).trans h3

/-! Byte-layer lemmas for the payload adapters. -/

theorem byteAt_append_left {a b : List Nat} {i : Nat} (h : i < a.length) :
    byteAt (a ++ b) i = byteAt a i := by
  induction a generalizing i with
  | nil => simp at h
  | cons x xs ih =>
    cases i with
    | zero => rfl
    | succ j =>
      simp only [List.length_cons, Nat.succ_lt_succ_iff] at h
      simpa [byteAt, List.getD] using ih h

theorem byteAt_take {l : List Nat} {n i : Nat} (h : i < n) :
    byteAt (l.take n) i = byteAt l i := by
  induction l generalizing n i with
  | nil => simp [byteAt]
  | cons x xs ih =>
    cases n with
    | zero => simp at h
    | succ m =>
      cases i with
      | zero => rfl
      | succ j =>
        have : j < m := Nat.lt_of_succ_lt_succ h
        simpa [byteAt, List.getD] using ih this

theorem byteAt_drop (l : List Nat) (n i : Nat) :
    byteAt (l.drop n) i = byteAt l (n + i) := by
  induction l generalizing n with
  | nil => simp [byteAt]
  | cons x xs ih =>
    cases n with
    | zero => simp
    | succ m =>
      rw [Nat.succ_add]
      rw [show ((x :: xs).drop (m + 1)) = xs.drop m from rfl]
      rw [show byteAt (x :: xs) (m + i).succ = byteAt xs (m + i) from rfl]
      exact ih m

theorem writeBytes_in {mem : Nat → Nat} {addr : Nat} {data : List Nat} {a : Nat}
    (h1 : addr ≤ a) (h2 : a - addr < data.length) :
    writeBytes mem addr data a = byteAt data (a - addr) := by
  simp [writeBytes, h1, h2]

theorem writeBytes_before {mem : Nat → Nat} {addr : Nat} {data : List Nat} {a : Nat}
    (h : a < addr) : writeBytes mem addr data a = mem a := by
  simp [writeBytes, Nat.not_le.mpr h]

/-- Payload bytes after ubi_leb_data_write: every position inside the buffer
length holds the corresponding buffer byte, and the header layer is
untouched, and the call returns 0. -/
theorem lebDataWrite_spec (nr ebs : Nat) (media : Media) (pnum : Nat)
    (buf : List Nat) (hne : buf ≠ []) (hp1 : ¬ nr < pnum) (hp0 : pnum ≠ 0)
    (hp01 : pnum ≠ 1) (hlen : buf.length ≤ lebMax ebs) :
    (lebDataWrite nr ebs media pnum buf).2 = 0 ∧
      (lebDataWrite nr ebs media pnum buf).1.peb = media.peb ∧
      ∀ i, i < buf.length →
        (lebDataWrite nr ebs media pnum buf).1.mem (lebDataOff ebs pnum + i) =
          byteAt buf i := by
  have hlen0 : buf.length ≠ 0 := by simpa using hne
  have hbnd : ¬ lebMax ebs < buf.length := Nat.not_lt.mpr hlen
  simp only [lebDataWrite, hlen0, if_false, hp1, hp0, hp01, or_self, false_or,
    if_false, hbnd]
  by_cases hmod : buf.length % WRITE_BLOCK_SIZE_ALIGNMENT = 0
  · simp only [hmod, if_true]
    refine ⟨trivial, trivial, fun i hi => ?_⟩
    have h1 : lebDataOff ebs pnum ≤ lebDataOff ebs pnum + i := Nat.le_add_right _ _
    have h2 : lebDataOff ebs pnum + i - lebDataOff ebs pnum < buf.length := by
      simpa [Nat.add_sub_cancel_left] using hi
    simp [writeBytes_in h1 h2, Nat.add_sub_cancel_left]
  · simp only [hmod, if_false]
    by_cases hsmall : buf.length < WRITE_BLOCK_SIZE_ALIGNMENT
    · simp only [hsmall, if_true]
      refine ⟨trivial, trivial, fun i hi => ?_⟩
      have h1 : lebDataOff ebs pnum ≤ lebDataOff ebs pnum + i := Nat.le_add_right _ _
      have h2 : lebDataOff ebs pnum + i - lebDataOff ebs pnum <
          (buf ++ List.replicate (WRITE_BLOCK_SIZE_ALIGNMENT - buf.length) 0).length := by
        simp only [Nat.add_sub_cancel_left, List.length_append, List.length_replicate]
        exact Nat.lt_of_lt_of_le hi (Nat.le_add_right _ _)
      rw [writeBytes_in h1 h2]
      simp only [Nat.add_sub_cancel_left]
      exact byteAt_append_left hi
    · simp only [hsmall, if_false]
      refine ⟨trivial, trivial, fun i hi => ?_⟩
      set len := buf.length with hlendef
      set left := len % WRITE_BLOCK_SIZE_ALIGNMENT with hleft
      have hleftlt : left < WRITE_BLOCK_SIZE_ALIGNMENT :=
        Nat.mod_lt _ (by simp [WRITE_BLOCK_SIZE_ALIGNMENT])
      have hleftle : left ≤ len := Nat.mod_le _ _
      have hcut : len - left ≤ len := Nat.sub_le _ _
      by_cases hin : i < len - left
      · have hout : ¬ lebDataOff ebs pnum + (len - left) ≤ lebDataOff ebs pnum + i := by
          simpa using Nat.not_le.mpr hin
        rw [show lebDataOff ebs pnum + (len - left) =
            lebDataOff ebs pnum + (len - left) from rfl]
        rw [writeBytes_before (Nat.lt_of_not_le hout)]
        have h1 : lebDataOff ebs pnum ≤ lebDataOff ebs pnum + i := Nat.le_add_right _ _
        have h2 : lebDataOff ebs pnum + i - lebDataOff ebs pnum <
            (buf.take (len - left)).length := by
          simp only [Nat.add_sub_cancel_left, List.length_take]
          exact Nat.lt_min.mpr ⟨hin, Nat.lt_of_lt_of_le hin hcut⟩
        rw [writeBytes_in h1 h2]
        simp only [Nat.add_sub_cancel_left]
        exact byteAt_take hin
      · have hge : len - left ≤ i := Nat.not_lt.mp hin
        have h1 : lebDataOff ebs pnum + (len - left) ≤ lebDataOff ebs pnum + i :=
          Nat.add_le_add_left hge _
        have hdropped : i - (len - left) < len - (len - left) :=
          Nat.sub_lt_sub_right hge hi
        have hdrople : len - (len - left) = left := by omega
        have h2 : lebDataOff ebs pnum + i - (lebDataOff ebs pnum + (len - left)) <
            (buf.drop (len - left) ++
              List.replicate (WRITE_BLOCK_SIZE_ALIGNMENT - left) 0).length := by
          simp only [List.length_append, List.length_replicate, List.length_drop]
          have : lebDataOff ebs pnum + i - (lebDataOff ebs pnum + (len - left)) =
              i - (len - left) := by omega
          rw [this]
          exact Nat.lt_of_lt_of_le (hdrople ▸ hdropped) (Nat.le_add_right _ _)
        rw [writeBytes_in h1 h2]
        have heq : lebDataOff ebs pnum + i - (lebDataOff ebs pnum + (len - left)) =
            i - (len - left) := by omega
        rw [heq]
        have hinside : i - (len - left) < (buf.drop (len - left)).length := by
          simp only [List.length_drop]
          exact hdrople ▸ hdropped
        rw [byteAt_append_left hinside, byteAt_drop]
        congr 1
        omega

/-- Reading back a region whose bytes agree with a buffer yields the buffer. -/
theorem readBytes_of_agree {mem : Nat → Nat} {addr : Nat} {buf : List Nat}
    (h : ∀ i, i < buf.length → mem (addr + i) = byteAt buf i) :
    readBytes mem addr buf.length = buf := by
  apply List.ext_getElem
  · simp [readBytes]
  · intro i h1 h2
    simp only [readBytes, List.getElem_map, List.getElem_range]
    have hi : i < buf.length := h2
    rw [h i hi]
    simp [byteAt, List.getD_eq_getElem?_getD, List.getElem?_eq_getElem hi]

/-! Success-path shape of leb_write, used by several theorems below. -/

/-- The media after the successful write sequence of leb_write to PEB p0. -/
def lebWriteMediaAfter (nr ebs : Nat) (media : Media) (p0 : Nat) (vid : VidHdr)
    (buf : Option (List Nat)) : Media :=
  match buf with
  | none => vidSet media p0 vid
  | some b => (lebDataWrite nr ebs (vidSet media p0 vid) p0 b).1

theorem lebWriteAlloc_spec (nr ebs : Nat) (st : DeviceState) (media : Media)
    (vol_id lnum k0 p0 : Nat) (rest : List (Nat × Nat)) (buf : Option (List Nat))
    (hfree : st.free_pebs = (k0, p0) :: rest)
    (hp1 : ¬ nr < p0) (hp0 : p0 ≠ 0) (hp01 : p0 ≠ 1)
    (hbuf : buf = none ∨ ∃ b, buf = some b ∧ b ≠ [] ∧ b.length ≤ lebMax ebs) :
    lebWriteAlloc nr ebs ⟨false, false⟩ st media vol_id lnum buf (bufLen buf) =
      ({ st with
         free_pebs := rest,
         global_seqnr := st.global_seqnr + 1,
         vols := updateVol vol_id
           (fun w => { w with eba := insertSorted (lnum, p0) w.eba }) st.vols },
       lebWriteMediaAfter nr ebs media p0
         { lnum := lnum, vol_id := vol_id, sqnum := st.global_seqnr,
           data_size := bufLen buf } buf,
       0) := by
  rcases hbuf with hbuf | ⟨b, hbuf, hne, hlen⟩
  · subst hbuf
    simp [lebWriteAlloc, hfree, vidHdrWrite, hp1, hp0, hp01, bufLen,
      lebWriteMediaAfter]
  · subst hbuf
    have hdw := lebDataWrite_spec nr ebs
      (vidSet media p0
        { lnum := lnum, vol_id := vol_id, sqnum := st.global_seqnr,
          data_size := b.length })
      p0 b hne hp1 hp0 hp01 hlen
    have hblen : b.length > 0 := List.length_pos.mpr hne
    simp only [lebWriteAlloc, hfree, vidHdrWrite, hp1, hp0, hp01, or_self,
      false_or, if_false, bufLen, lebWriteMediaAfter]
    simp [hblen, hdw.1]

theorem lebWrite_eq_alloc_nomap (nr ebs : Nat) (wf : WriteFaults)
    (st : DeviceState) (media : Media) (vol_id lnum : Nat) (v : Volume)
    (buf : Option (List Nat))
    (hv : findVol vol_id st.vols = some v)
    (hl : ¬ lnum > v.cfg.leb_count)
    (hfree : st.free_pebs.length ≠ 0)
    (hlen : ¬ bufLen buf > lebMax ebs)
    (hnone : lookupKey lnum v.eba = none) :
    lebWrite nr ebs wf st media vol_id lnum buf =
      lebWriteAlloc nr ebs wf st media vol_id lnum buf (bufLen buf) := by
  simp [lebWrite, findVol_ne_nil hv, hv, hl, hfree, hlen, hnone]

theorem lebWrite_eq_alloc_remap (nr ebs : Nat) (wf : WriteFaults)
    (st : DeviceState) (media : Media) (vol_id lnum p_old ec_old : Nat) (v : Volume)
    (buf : Option (List Nat))
    (hv : findVol vol_id st.vols = some v)
    (hl : ¬ lnum > v.cfg.leb_count)
    (hfree : st.free_pebs.length ≠ 0)
    (hlen : ¬ bufLen buf > lebMax ebs)
    (hsome : lookupKey lnum v.eba = some p_old)
    (hpo1 : ¬ nr < p_old) (hpo0 : p_old ≠ 0) (hpo01 : p_old ≠ 1)
    (hec : (media.peb p_old).ec = some ec_old) :
    lebWrite nr ebs wf st media vol_id lnum buf =
      lebWriteAlloc nr ebs wf
        { st with
          vols := updateVol vol_id
            (fun w => { w with eba := eraseKey lnum w.eba }) st.vols,
          dirty_pebs := insertSorted (ec_old, p_old) st.dirty_pebs }
        media vol_id lnum buf (bufLen buf) := by
  have hread : ecHdrRead nr media p_old = Except.ok ec_old := by
    simp [ecHdrRead, hpo1, hpo0, hpo01, hec]
  simp [lebWrite, findVol_ne_nil hv, hv, hl, hfree, hlen, hsome, hread]

theorem updateVol_updateVol {vol_id : Nat} {f g : Volume → Volume}
    (hf : ∀ v, (f v).vol_id = v.vol_id) (vs : List Volume) :
    updateVol vol_id g (updateVol vol_id f vs) =
      updateVol vol_id (fun v => g (f v)) vs := by
  induction vs with
  | nil => rfl
  | cons w ws ih =>
    simp only [updateVol]
    by_cases hw : w.vol_id = vol_id
    · simp [updateVol, hw, hf w]
    · simp [updateVol, hw, ih]

theorem mem_updateVol_of_findVol {w v0 : Volume} {vol_id : Nat}
    {f : Volume → Volume} {vs : List Volume}
    (hfind : findVol vol_id vs = some v0) (h : w ∈ updateVol vol_id f vs) :
    w ∈ vs ∨ w = f v0 := by
  induction vs with
  | nil => simp [updateVol] at h
  | cons x xs ih =>
    simp only [findVol] at hfind
    simp only [updateVol] at h
    by_cases hx : x.vol_id = vol_id
    · simp only [hx, if_true, Option.some.injEq] at hfind
      subst hfind
      simp only [hx, if_true, List.mem_cons] at h
      rcases h with h | h
      · exact Or.inr h
      · exact Or.inl (List.mem_cons_of_mem x h)
    · simp only [hx, if_false] at hfind
      simp only [hx, if_false, List.mem_cons] at h
      rcases h with h | h
      · exact Or.inl (h ▸ List.mem_cons_self x xs)
      · rcases ih hfind h with h | h
        · exact Or.inl (List.mem_cons_of_mem x h)
        · exact Or.inr h

/-! Shared concrete fixtures for evaluation theorems and witnesses. -/

/-- A 16-byte NUL-padded volume name. -/
def exName : List Nat := [47, 117, 98, 105, 0, 0, 0, 0, 0, 0, 0, 0, 0, 0, 0, 0]

/-- An on-media volume table with one volume of the given LEB count. -/
def exVolHdr (lebs : Nat) : VolHdr :=
  { vol_type := 0, vol_id := 0, lebs_count := lebs, name := exName }

/-- Media whose two usable PEBs (partition of 4 PEBs) are freshly formatted. -/
def exMediaErased : Media :=
  { peb := fun p =>
      if p = 2 ∨ p = 3 then { ec := some 0, vid := VidState.erased }
      else { ec := none, vid := VidState.erased },
    mem := fun _ => 255 }

/-- Media on which every EC header fails validation. -/
def exMediaAllBad : Media :=
  { peb := fun _ => { ec := none, vid := VidState.erased }, mem := fun _ => 255 }

/-- Media where PEBs 2 and 3 both claim volume 0, LEB 0, with sqnums 0 and 1. -/
def exMediaDup : Media :=
  { peb := fun p =>
      if p = 2 then
        { ec := some 5,
          vid := VidState.valid { lnum := 0, vol_id := 0, sqnum := 0, data_size := 0 } }
      else if p = 3 then
        { ec := some 7,
          vid := VidState.valid { lnum := 0, vol_id := 0, sqnum := 1, data_size := 0 } }
      else { ec := none, vid := VidState.erased },
    mem := fun _ => 255 }

/-- Media whose VID headers are present but fail the magic/CRC check. -/
def exMediaInvalidVid : Media :=
  { peb := fun _ => { ec := some 0, vid := VidState.invalid }, mem := fun _ => 255 }

/-- A one-LEB volume with an empty EBA. -/
def exVol1 : Volume :=
  { vol_idx := 0, vol_id := 0,
    cfg := { name := exName, vtype := 0, leb_count := 1 }, eba := [] }

/-- Device state with one empty one-LEB volume and one free PEB. -/
def exSt1 : DeviceState :=
  { vols := [exVol1], free_pebs := [(0, 2)], dirty_pebs := [], bad_pebs := [],
    global_seqnr := 0, vols_seqnr := 1 }

/-- A volume with LEB 0 mapped to PEB 2, and a device state holding it. -/
def exVolMapped : Volume :=
  { vol_idx := 0, vol_id := 0,
    cfg := { name := exName, vtype := 0, leb_count := 4 }, eba := [(0, 2)] }

def exStMapped : DeviceState :=
  { vols := [exVolMapped], free_pebs := [], dirty_pebs := [], bad_pebs := [],
    global_seqnr := 2, vols_seqnr := 1 }

/-! Claim C1. -/

/-- C1: during the device_init scan, when a scanned PEB conflicts with an
existing EBA entry and wins on sqnum, the loser lands in the dirty pool keyed
by its own erase counter, but the winner is inserted into the EBA keyed by
its PEB number (3) instead of the claimed LEB number (0), with the value
field left uninitialised (the junk parameter): evaluation of the scan on a
two-PEB duplicate of (vol 0, LEB 0) with sqnums 0 and 1.  This exhibits the
divergence of the source (item key set to pnum, dead store of lnum before
it) from the claim, which expects an entry with key lnum = 0 whose value is
the winner PEB 3. -/
theorem c1_conflict_scan_eval : ∀ junk : Nat,
    (deviceInitMounted 4 junk [exVolHdr 4] exMediaDup).dirty_pebs = [(5, 2)] ∧
    (deviceInitMounted 4 junk [exVolHdr 4] exMediaDup).vols =
      [{ vol_idx := 0, vol_id := 0,
         cfg := { name := exName, vtype := 0, leb_count := 4 },
         eba := [(3, junk)] }] ∧
    ∀ v ∈ (deviceInitMounted 4 junk [exVolHdr 4] exMediaDup).vols,
      lookupKey 0 v.eba = none := by
  intro junk
  refine ⟨rfl, rfl, ?_⟩
  intro v hv
  have hvols : (deviceInitMounted 4 junk [exVolHdr 4] exMediaDup).vols =
      [{ vol_idx := 0, vol_id := 0,
         cfg := { name := exName, vtype := 0, leb_count := 4 },
         eba := [(3, junk)] }] := rfl
  rw [hvols] at hv
  simp only [List.mem_singleton] at hv
  subst hv
  rfl

/-! Claim C8. -/

/-- C8: ubi_vid_hdr_read with the CRC check enabled, on a PEB whose VID
header fails validation, returns -EBADMSG through a return statement placed
before the goto exit, so the flash area handle opened by the call is never
closed: the third component (handle closed before returning) is false. -/
theorem c8_vid_hdr_read_leak :
    vidHdrRead 4 exMediaInvalidVid 2 true = (retEbadmsg, VidState.invalid, false) ∧
    vidHdrRead 4 exMediaInvalidVid 2 false = (0, VidState.invalid, true) := by
  constructor <;> rfl

/-! Claim C9. -/

/-- C9: on a mounted partition where the EC header of every usable PEB fails
validation, the EC pass of device_init counts zero valid headers, so the
division ec_sum / ec_count in the source executes with a zero divisor
(undefined behaviour in C; Nat division renders it as 0 here). -/
theorem c9_ec_count_zero :
    (ecPass 4 exMediaAllBad).2 = 0 ∧ (ecPass 4 exMediaAllBad).1 = 0 := by
  constructor <;> rfl

/-! Claim C2: counterexample trace across a deinit/init cycle. -/

/-- State after mounting a fresh two-PEB partition with one two-LEB volume. -/
def c2StMount1 : DeviceState := deviceInitMounted 4 0 [exVolHdr 2] exMediaErased

/-- First write of (vol 0, LEB 0) in the first mount epoch. -/
def c2Write1 : DeviceState × Media × Int :=
  ubiLebWrite 4 64 ⟨false, false⟩ c2StMount1 exMediaErased 0 0 (some [1, 2, 3])

/-- Remount on the media left by the first write (RAM state dropped). -/
def c2StMount2 : DeviceState := deviceInitMounted 4 0 [exVolHdr 2] c2Write1.2.1

/-- Second write of (vol 0, LEB 0), issued in the second mount epoch. -/
def c2Write2 : DeviceState × Media × Int :=
  ubiLebWrite 4 64 ⟨false, false⟩ c2StMount2 c2Write1.2.1 0 0 (some [9, 9])

/-- C2 fails on the code: device_init raises global_seqnr only to the maximum
on-media sqnum (not past it), so the write issued after a deinit/init cycle
draws sqnum 0 again.  Both writes succeed, and afterwards PEB 2 and PEB 3
both hold valid VID headers claiming (vol 0, LEB 0) with the same sqnum 0,
contradicting the claimed strict growth across remount and the claimed
impossibility of equal sqnums for one (vol_id, lnum). -/
theorem c2_counterexample :
    c2Write1.2.2 = 0 ∧ c2Write2.2.2 = 0 ∧
    c2StMount2.global_seqnr = 0 ∧
    (c2Write2.2.1.peb 2).vid =
      VidState.valid { lnum := 0, vol_id := 0, sqnum := 0, data_size := 3 } ∧
    (c2Write2.2.1.peb 3).vid =
      VidState.valid { lnum := 0, vol_id := 0, sqnum := 0, data_size := 2 } := by
  refine ⟨rfl, rfl, rfl, rfl, rfl⟩

/-! Claim C3: counterexample on the erase_peb failure path. -/

/-- Device state whose dirty pool holds PEB 2 with EC key 0. -/
def c3StDirty : DeviceState :=
  { vols := [], free_pebs := [], dirty_pebs := [(0, 2)], bad_pebs := [],
    global_seqnr := 0, vols_seqnr := 0 }

/-- erase_peb on that state with an unreadable EC header at PEB 2. -/
def c3Erase : DeviceState × Media × Int :=
  ubiDeviceErasePeb 4 64 ⟨false, false, false⟩ c3StDirty exMediaAllBad

/-- C3 fails on the code: when the EC header read inside device_erase_peb
fails, move_to_bad_blocks appends PEB 2 to the bad list while the dirty tree
node is only k_free-d, never rb_remove-d, so PEB 2 is recorded both in the
dirty pool and in the bad list afterwards: its occurrence count across all
pools is 2, not 1, refuting the exactly-one claim and in particular the part
that a PEB moved to the bad list no longer appears in the dirty pool. -/
theorem c3_counterexample :
    c3Erase.2.2 = 0 ∧
    c3Erase.1.dirty_pebs = [(0, 2)] ∧
    c3Erase.1.bad_pebs = [(2, 0)] ∧
    (allPebs c3Erase.1).count 2 = 2 := by
  refine ⟨rfl, rfl, rfl, rfl⟩

/-! Claim C4: counterexample at lnum equal to the LEB count. -/

/-- leb_map of LEB 1 on a volume whose leb_count is 1. -/
def c4Map : DeviceState × Media × Int :=
  ubiLebMap 4 64 ⟨false, false⟩ exSt1 exMediaErased 0 1

/-- C4 fails on the code: the guard compares lnum with strict greater-than,
so leb_map at lnum = leb_count = 1 is accepted, succeeds, and inserts key 1
into the EBA of a volume whose leb_count is 1, contradicting the claimed
invariant that every EBA key is strictly below the LEB count. -/
theorem c4_counterexample :
    c4Map.2.2 = 0 ∧
    c4Map.1.vols = [{ exVol1 with eba := [(1, 2)] }] ∧
    ¬ (1 < exVol1.cfg.leb_count) := by
  refine ⟨rfl, rfl, by decide⟩

/-! Claim C6. -/

/-- C6: device_erase_peb with an empty dirty pool changes nothing and returns
success; with a non-empty dirty pool it takes the least-EC dirty entry (the
head of the EC-sorted pool, least by the stated minimality hypothesis),
erases that PEB, rewrites its EC header incremented by exactly one, inserts
the PEB into the free pool keyed by the new counter and returns success; and
when the EC header read, the flash erase, or the EC header rewrite fails, the
PEB is placed on the bad list with its dirty-pool key as erase count and the
call still returns 0 to the caller. -/
theorem c6_erase_peb :
    ∀ (nr ebs : Nat) (ef : EraseFaults) (st : DeviceState) (media : Media)
      (k p : Nat) (rest : List (Nat × Nat)) (e : Nat) (err : Int),
    (st.dirty_pebs = [] → ubiDeviceErasePeb nr ebs ef st media = (st, media, 0)) ∧
    (st.dirty_pebs = (k, p) :: rest → (∀ q ∈ rest, k ≤ q.1) →
      (media.peb p).ec = some e → ¬ nr < p → p ≠ 0 → p ≠ 1 →
      ef = ⟨false, false, false⟩ →
      ubiDeviceErasePeb nr ebs ef st media =
        ({ st with
           dirty_pebs := rest
           free_pebs := insertSorted (e + 1, p) st.free_pebs },
         ecSet (eraseBlock media ebs p) p (e + 1), 0)) ∧
    (st.dirty_pebs = (k, p) :: rest → ecHdrRead nr media p = Except.error err →
      ubiDeviceErasePeb nr ebs ef st media =
        ({ st with bad_pebs := st.bad_pebs ++ [(p, k)] }, media, 0)) ∧
    (st.dirty_pebs = (k, p) :: rest → (media.peb p).ec = some e →
      ¬ nr < p → p ≠ 0 → p ≠ 1 → ef.open_fail = false → ef.erase_fail = true →
      ubiDeviceErasePeb nr ebs ef st media =
        ({ st with bad_pebs := st.bad_pebs ++ [(p, k)] }, media, 0)) ∧
    (st.dirty_pebs = (k, p) :: rest → (media.peb p).ec = some e →
      ¬ nr < p → p ≠ 0 → p ≠ 1 → ef = ⟨false, false, true⟩ →
      ubiDeviceErasePeb nr ebs ef st media =
        ({ st with bad_pebs := st.bad_pebs ++ [(p, k)] },
         eraseBlock media ebs p, 0)) := by
  intro nr ebs ef st media k p rest e err
  refine ⟨?_, ?_, ?_, ?_, ?_⟩
  · intro hd
    simp [ubiDeviceErasePeb, hd]
  · intro hd _hmin hec hb1 hb0 hb01 hef
    subst hef
    simp [ubiDeviceErasePeb, hd, ecHdrRead, hb1, hb0, hb01, hec]
  · intro hd herr
    simp [ubiDeviceErasePeb, hd, herr]
  · intro hd hec hb1 hb0 hb01 hopen hfail
    simp [ubiDeviceErasePeb, hd, ecHdrRead, hb1, hb0, hb01, hec, hopen, hfail]
  · intro hd hec hb1 hb0 hb01 hef
    subst hef
    simp [ubiDeviceErasePeb, hd, ecHdrRead, hb1, hb0, hb01, hec]

/-- Witness for C6: the empty-pool conjunct on a state with an empty dirty
pool, the success conjunct on a dirty PEB with a readable EC header, and the
EC-read-failure conjunct on media where validation fails. -/
theorem c6_erase_peb_witness :
    ubiDeviceErasePeb 4 64 ⟨false, false, false⟩ exSt1 exMediaErased =
      (exSt1, exMediaErased, 0) ∧
    ubiDeviceErasePeb 4 64 ⟨false, false, false⟩ c3StDirty exMediaErased =
      ({ c3StDirty with
         dirty_pebs := []
         free_pebs := [(1, 2)] },
       ecSet (eraseBlock exMediaErased 64 2) 2 1, 0) ∧
    ubiDeviceErasePeb 4 64 ⟨false, false, false⟩ c3StDirty exMediaAllBad =
      ({ c3StDirty with bad_pebs := [(2, 0)] }, exMediaAllBad, 0) ∧
    ubiDeviceErasePeb 4 64 ⟨false, true, false⟩ c3StDirty exMediaErased =
      ({ c3StDirty with bad_pebs := [(2, 0)] }, exMediaErased, 0) ∧
    ubiDeviceErasePeb 4 64 ⟨false, false, true⟩ c3StDirty exMediaErased =
      ({ c3StDirty with bad_pebs := [(2, 0)] }, eraseBlock exMediaErased 64 2, 0) := by
  refine ⟨?_, ?_, ?_, ?_, ?_⟩
  · exact (c6_erase_peb 4 64 ⟨false, false, false⟩ exSt1 exMediaErased 0 0 [] 0 0).1 rfl
  · exact (c6_erase_peb 4 64 ⟨false, false, false⟩ c3StDirty exMediaErased 0 2 [] 0
      0).2.1 rfl (by intro q hq; simp at hq) rfl (by decide) (by decide) (by decide)
      rfl
  · exact (c6_erase_peb 4 64 ⟨false, false, false⟩ c3StDirty exMediaAllBad 0 2 [] 0
      retEbadmsg).2.2.1 rfl rfl
  · exact (c6_erase_peb 4 64 ⟨false, true, false⟩ c3StDirty exMediaErased 0 2 [] 0
      0).2.2.2.1 rfl rfl (by decide) (by decide) (by decide) rfl rfl
  · exact (c6_erase_peb 4 64 ⟨false, false, true⟩ c3StDirty exMediaErased 0 2 [] 0
      0).2.2.2.2 rfl rfl (by decide) (by decide) (by decide) rfl

/-! Claim C7. -/

theorem nameMatches_of_eq {a b : List Nat} (h : b = a) :
    nameMatches a b = true := by
  subst h
  simp [nameMatches]

theorem findByName_of_mem {n : List Nat} {vs : List Volume} {v : Volume}
    (hv : v ∈ vs) (hm : nameMatches n v.cfg.name = true) :
    ∃ w ∈ vs, nameMatches n w.cfg.name = true ∧ findByName n vs = some w := by
  induction vs with
  | nil => simp at hv
  | cons x xs ih =>
    by_cases hx : nameMatches n x.cfg.name = true
    · exact ⟨x, List.mem_cons_self x xs, hx, by simp [findByName, hx]⟩
    · have hvx : v ∈ xs := by
        rcases List.mem_cons.mp hv with h | h
        · exact absurd (h ▸ hm) hx
        · exact h
      rcases ih hvx with ⟨w, hw, hwm, hwf⟩
      exact ⟨w, List.mem_cons_of_mem x hw, hwm,
        by simp [findByName, hx, hwf]⟩

/-- C7: when the configuration name byte-equals the stored name of an
already-registered volume, ubi_volume_create returns success and the vol_id
of a registered volume with that name, leaves the device state (volume
registry, vols_seqnr, pool contents) and the dual-bank metadata unchanged,
and performs no flash write (the returned wrote-flash flag is false). -/
theorem c7_create_idempotent :
    ∀ (nr maxVols : Nat) (st : DeviceState) (banks : Banks) (cfg : VolumeConfig)
      (v : Volume), v ∈ st.vols → v.cfg.name = cfg.name →
    ∃ w ∈ st.vols, nameMatches cfg.name w.cfg.name = true ∧
      ubiVolumeCreate nr maxVols st banks cfg = (st, banks, 0, some w.vol_id, false) := by
  intro nr maxVols st banks cfg v hv hname
  rcases findByName_of_mem hv (nameMatches_of_eq hname) with ⟨w, hw, hwm, hwf⟩
  exact ⟨w, hw, hwm, by simp [ubiVolumeCreate, hwf]⟩

/-- Witness for C7: creating a volume whose name equals the registered
volume name of exSt1 returns id 0 and changes nothing. -/
theorem c7_create_idempotent_witness :
    ∃ w ∈ exSt1.vols, nameMatches exName w.cfg.name = true ∧
      ubiVolumeCreate 4 8 exSt1 { revision := 3, volhdrs := [exVolHdr 1] }
          { name := exName, vtype := 1, leb_count := 2 } =
        (exSt1, { revision := 3, volhdrs := [exVolHdr 1] }, 0, some w.vol_id, false) :=
  c7_create_idempotent 4 8 exSt1 { revision := 3, volhdrs := [exVolHdr 1] }
    { name := exName, vtype := 1, leb_count := 2 } exVol1 (by simp [exSt1]) rfl

/-! Claim C2 (amended): within one mount epoch. -/

theorem vidSet_peb_self (media : Media) (p0 : Nat) (h : VidHdr) :
    (vidSet media p0 h).peb p0 =
      { ec := (media.peb p0).ec, vid := VidState.valid h } := by
  simp [vidSet]

theorem vidSet_peb_other (media : Media) (p0 : Nat) (h : VidHdr) {q : Nat}
    (hq : q ≠ p0) : (vidSet media p0 h).peb q = media.peb q := by
  simp [vidSet, hq]

/-- C2 (amended): within a single mount epoch, a successful leb_write (first
conjunct) and a successful leb_map (second conjunct) each draw their sqnum
from the current global_seqnr and then advance global_seqnr by one, so
consecutive successful writes and maps carry strictly increasing sqnums and
global_seqnr strictly exceeds every sqnum written during the epoch (the
seqBound implication).  The cross-remount half of the original claim is
refuted by c2_counterexample: device_init only raises global_seqnr to the
maximum on-media sqnum, so the first write after a remount may repeat it. -/
theorem c2_seqnr_within_epoch :
    (∀ (nr ebs : Nat) (st : DeviceState) (media : Media) (vol_id lnum : Nat)
      (b : List Nat) (v : Volume) (k0 p0 : Nat) (rest : List (Nat × Nat)),
      findVol vol_id st.vols = some v →
      lnum ≤ v.cfg.leb_count →
      st.free_pebs = (k0, p0) :: rest →
      ¬ nr < p0 → p0 ≠ 0 → p0 ≠ 1 →
      b ≠ [] → b.length ≤ lebMax ebs →
      (∀ p_old, lookupKey lnum v.eba = some p_old →
        (¬ nr < p_old ∧ p_old ≠ 0 ∧ p_old ≠ 1) ∧
          ∃ ec_old, (media.peb p_old).ec = some ec_old) →
      ∃ st2 media2,
        ubiLebWrite nr ebs ⟨false, false⟩ st media vol_id lnum (some b) =
          (st2, media2, 0) ∧
        (media2.peb p0).vid = VidState.valid
          { lnum := lnum, vol_id := vol_id, sqnum := st.global_seqnr,
            data_size := b.length } ∧
        st2.global_seqnr = st.global_seqnr + 1 ∧
        (seqBound st media → seqBound st2 media2)) ∧
    (∀ (nr ebs : Nat) (st : DeviceState) (media : Media) (vol_id lnum : Nat)
      (v : Volume) (k0 p0 : Nat) (rest : List (Nat × Nat)),
      findVol vol_id st.vols = some v →
      lnum ≤ v.cfg.leb_count →
      st.free_pebs = (k0, p0) :: rest →
      ¬ nr < p0 → p0 ≠ 0 → p0 ≠ 1 →
      (∀ p_old, lookupKey lnum v.eba = some p_old →
        (¬ nr < p_old ∧ p_old ≠ 0 ∧ p_old ≠ 1) ∧
          ∃ ec_old, (media.peb p_old).ec = some ec_old) →
      ∃ st2 media2,
        ubiLebMap nr ebs ⟨false, false⟩ st media vol_id lnum =
          (st2, media2, 0) ∧
        (media2.peb p0).vid = VidState.valid
          { lnum := lnum, vol_id := vol_id, sqnum := st.global_seqnr,
            data_size := 0 } ∧
        st2.global_seqnr = st.global_seqnr + 1 ∧
        (seqBound st media → seqBound st2 media2)) := by
  refine ⟨?_, ?_⟩
  · intro nr ebs st media vol_id lnum b v k0 p0 rest hv hlnum hfree hp1 hp0 hp01
      hb hblen hold
    have hl : ¬ lnum > v.cfg.leb_count := Nat.not_lt.mpr hlnum
    have hfree_len : st.free_pebs.length ≠ 0 := by rw [hfree]; simp
    have hlen' : ¬ bufLen (some b) > lebMax ebs := by
      simpa [bufLen] using Nat.not_lt.mpr hblen
    have hbl : b.length ≠ 0 := by simpa using hb
    have hwrap : ubiLebWrite nr ebs ⟨false, false⟩ st media vol_id lnum (some b) =
        lebWrite nr ebs ⟨false, false⟩ st media vol_id lnum (some b) := by
      simp [ubiLebWrite, hbl]
    have hdw := lebDataWrite_spec nr ebs
      (vidSet media p0
        { lnum := lnum, vol_id := vol_id, sqnum := st.global_seqnr,
          data_size := bufLen (some b) })
      p0 b hb hp1 hp0 hp01 hblen
    have hpeb : (lebWriteMediaAfter nr ebs media p0
        { lnum := lnum, vol_id := vol_id, sqnum := st.global_seqnr,
          data_size := bufLen (some b) } (some b)).peb =
        (vidSet media p0
          { lnum := lnum, vol_id := vol_id, sqnum := st.global_seqnr,
            data_size := bufLen (some b) }).peb := hdw.2.1
    have hvid : ((lebWriteMediaAfter nr ebs media p0
        { lnum := lnum, vol_id := vol_id, sqnum := st.global_seqnr,
          data_size := bufLen (some b) } (some b)).peb p0).vid =
        VidState.valid
          { lnum := lnum, vol_id := vol_id, sqnum := st.global_seqnr,
            data_size := b.length } := by
      rw [hpeb, vidSet_peb_self]
      rfl
    have hbound : seqBound st media →
        (∀ q h, ((lebWriteMediaAfter nr ebs media p0
          { lnum := lnum, vol_id := vol_id, sqnum := st.global_seqnr,
            data_size := bufLen (some b) } (some b)).peb q).vid =
            VidState.valid h → h.sqnum < st.global_seqnr + 1) := by
      intro hsb q h hq
      rw [hpeb] at hq
      by_cases hqp : q = p0
      · subst hqp
        rw [vidSet_peb_self] at hq
        simp only at hq
        cases hq
        exact Nat.lt_succ_self _
      · rw [vidSet_peb_other media p0 _ hqp] at hq
        exact Nat.lt_succ_of_lt (hsb q h hq)
    cases hlk : lookupKey lnum v.eba with
    | none =>
      have heq := lebWrite_eq_alloc_nomap nr ebs ⟨false, false⟩ st media vol_id lnum
        v (some b) hv hl hfree_len hlen' hlk
      have hspec := lebWriteAlloc_spec nr ebs st media vol_id lnum k0 p0 rest
        (some b) hfree hp1 hp0 hp01 (Or.inr ⟨b, rfl, hb, hblen⟩)
      refine ⟨_, _, by rw [hwrap, heq, hspec], hvid, rfl, ?_⟩
      intro hsb q h hq
      exact hbound hsb q h hq
    | some p_old =>
      obtain ⟨⟨hpo1, hpo0, hpo01⟩, ec_old, hec⟩ := hold p_old hlk
      have heq := lebWrite_eq_alloc_remap nr ebs ⟨false, false⟩ st media vol_id lnum
        p_old ec_old v (some b) hv hl hfree_len hlen' hlk hpo1 hpo0 hpo01 hec
      have hspec := lebWriteAlloc_spec nr ebs
        { st with
          vols := updateVol vol_id
            (fun w => { w with eba := eraseKey lnum w.eba }) st.vols
          dirty_pebs := insertSorted (ec_old, p_old) st.dirty_pebs }
        media vol_id lnum k0 p0 rest (some b)
        hfree hp1 hp0 hp01 (Or.inr ⟨b, rfl, hb, hblen⟩)
      refine ⟨_, _, by rw [hwrap, heq, hspec], hvid, rfl, ?_⟩
      intro hsb q h hq
      exact hbound hsb q h hq
  · intro nr ebs st media vol_id lnum v k0 p0 rest hv hlnum hfree hp1 hp0 hp01
      hold
    have hl : ¬ lnum > v.cfg.leb_count := Nat.not_lt.mpr hlnum
    have hfree_len : st.free_pebs.length ≠ 0 := by rw [hfree]; simp
    have hlen' : ¬ bufLen none > lebMax ebs := by simp [bufLen]
    have hwrap : ubiLebMap nr ebs ⟨false, false⟩ st media vol_id lnum =
        lebWrite nr ebs ⟨false, false⟩ st media vol_id lnum none := rfl
    have hpeb : (lebWriteMediaAfter nr ebs media p0
        { lnum := lnum, vol_id := vol_id, sqnum := st.global_seqnr,
          data_size := bufLen none } none).peb =
        (vidSet media p0
          { lnum := lnum, vol_id := vol_id, sqnum := st.global_seqnr,
            data_size := bufLen none }).peb := rfl
    have hvid : ((lebWriteMediaAfter nr ebs media p0
        { lnum := lnum, vol_id := vol_id, sqnum := st.global_seqnr,
          data_size := bufLen none } none).peb p0).vid =
        VidState.valid
          { lnum := lnum, vol_id := vol_id, sqnum := st.global_seqnr,
            data_size := 0 } := by
      rw [hpeb, vidSet_peb_self]
      rfl
    have hbound : seqBound st media →
        (∀ q h, ((lebWriteMediaAfter nr ebs media p0
          { lnum := lnum, vol_id := vol_id, sqnum := st.global_seqnr,
            data_size := bufLen none } none).peb q).vid =
            VidState.valid h → h.sqnum < st.global_seqnr + 1) := by
      intro hsb q h hq
      rw [hpeb] at hq
      by_cases hqp : q = p0
      · subst hqp
        rw [vidSet_peb_self] at hq
        simp only at hq
        cases hq
        exact Nat.lt_succ_self _
      · rw [vidSet_peb_other media p0 _ hqp] at hq
        exact Nat.lt_succ_of_lt (hsb q h hq)
    cases hlk : lookupKey lnum v.eba with
    | none =>
      have heq := lebWrite_eq_alloc_nomap nr ebs ⟨false, false⟩ st media vol_id
        lnum v none hv hl hfree_len hlen' hlk
      have hspec := lebWriteAlloc_spec nr ebs st media vol_id lnum k0 p0 rest
        none hfree hp1 hp0 hp01 (Or.inl rfl)
      refine ⟨_, _, by rw [hwrap, heq, hspec], hvid, rfl, ?_⟩
      intro hsb q h hq
      exact hbound hsb q h hq
    | some p_old =>
      obtain ⟨⟨hpo1, hpo0, hpo01⟩, ec_old, hec⟩ := hold p_old hlk
      have heq := lebWrite_eq_alloc_remap nr ebs ⟨false, false⟩ st media vol_id
        lnum p_old ec_old v none hv hl hfree_len hlen' hlk hpo1 hpo0 hpo01 hec
      have hspec := lebWriteAlloc_spec nr ebs
        { st with
          vols := updateVol vol_id
            (fun w => { w with eba := eraseKey lnum w.eba }) st.vols
          dirty_pebs := insertSorted (ec_old, p_old) st.dirty_pebs }
        media vol_id lnum k0 p0 rest none
        hfree hp1 hp0 hp01 (Or.inl rfl)
      refine ⟨_, _, by rw [hwrap, heq, hspec], hvid, rfl, ?_⟩
      intro hsb q h hq
      exact hbound hsb q h hq

/-- Witness for C2 (amended): on the freshly mounted exSt1, a write draws
sqnum 0 = global_seqnr and leaves global_seqnr at 1, and a map of LEB 1 on
the same state does the same with data_size 0. -/
theorem c2_seqnr_witness :
    (∃ st2 media2,
      ubiLebWrite 4 64 ⟨false, false⟩ exSt1 exMediaErased 0 0 (some [10, 20, 30]) =
        (st2, media2, 0) ∧
      (media2.peb 2).vid = VidState.valid
        { lnum := 0, vol_id := 0, sqnum := exSt1.global_seqnr, data_size := 3 } ∧
      st2.global_seqnr = exSt1.global_seqnr + 1 ∧
      (seqBound exSt1 exMediaErased → seqBound st2 media2)) ∧
    (∃ st2 media2,
      ubiLebMap 4 64 ⟨false, false⟩ exSt1 exMediaErased 0 1 =
        (st2, media2, 0) ∧
      (media2.peb 2).vid = VidState.valid
        { lnum := 1, vol_id := 0, sqnum := exSt1.global_seqnr, data_size := 0 } ∧
      st2.global_seqnr = exSt1.global_seqnr + 1 ∧
      (seqBound exSt1 exMediaErased → seqBound st2 media2)) :=
  ⟨c2_seqnr_within_epoch.1 4 64 exSt1 exMediaErased 0 0 [10, 20, 30] exVol1 0 2 []
      rfl (by decide) rfl (by decide) (by decide) (by decide) (by decide) (by decide)
      (by intro p_old h; simp [exVol1, lookupKey] at h),
    c2_seqnr_within_epoch.2 4 64 exSt1 exMediaErased 0 1 exVol1 0 2 []
      rfl (by decide) rfl (by decide) (by decide) (by decide)
      (by intro p_old h; simp [exVol1, lookupKey] at h)⟩

/-! Counting lemmas for the PEB-partition invariant. -/

theorem count_map_insertSorted (e : Nat × Nat) (l : List (Nat × Nat)) (q : Nat) :
    ((insertSorted e l).map (fun x => x.2)).count q =
      ((l.map (fun x => x.2)).count q) + (if q = e.2 then 1 else 0) := by
  have hp := ((insertSorted_perm e l).map (fun x => x.2)).count_eq q
  rw [hp]
  simp only [List.map_cons, List.count_cons, beq_iff_eq]
  by_cases hq : q = e.2
  · simp [hq]
  · simp [eq_comm, hq]

theorem count_map_eraseKey {k p : Nat} {l : List (Nat × Nat)}
    (h : lookupKey k l = some p) (q : Nat) :
    (l.map (fun x => x.2)).count q =
      ((eraseKey k l).map (fun x => x.2)).count q + (if q = p then 1 else 0) := by
  have hp := ((lookupKey_eraseKey_perm h).map (fun x => x.2)).count_eq q
  rw [hp]
  simp only [List.map_cons, List.count_cons, beq_iff_eq]
  by_cases hq : q = p
  · simp [hq]
  · simp [eq_comm, hq]

theorem count_ebaPnums_updateVol {vol_id : Nat} {vs : List Volume} {v : Volume}
    (f : Volume → Volume) (h : findVol vol_id vs = some v) (q : Nat) :
    (ebaPnums (updateVol vol_id f vs)).count q +
        (v.eba.map (fun e => e.2)).count q =
      (ebaPnums vs).count q + ((f v).eba.map (fun e => e.2)).count q := by
  have hp := (ebaPnums_updateVol_perm f h).count_eq q
  simpa [List.count_append] using hp

theorem count_allPebs (st : DeviceState) (q : Nat) :
    (allPebs st).count q =
      (ebaPnums st.vols).count q + (st.free_pebs.map (fun e => e.2)).count q +
        (st.dirty_pebs.map (fun e => e.2)).count q +
        (st.bad_pebs.map (fun e => e.1)).count q := by
  simp [allPebs, List.count_append]
  omega

/-! Shape lemmas: preservation of the partition invariant. -/

theorem partInv_write_nomap (nr : Nat) (st : DeviceState) (vol_id lnum k0 p0 g : Nat)
    (rest : List (Nat × Nat)) (v : Volume)
    (hv : findVol vol_id st.vols = some v)
    (hfree : st.free_pebs = (k0, p0) :: rest)
    (hinv : partInv nr st) :
    partInv nr
      { st with
        free_pebs := rest
        global_seqnr := g
        vols := updateVol vol_id
          (fun w => { w with eba := insertSorted (lnum, p0) w.eba }) st.vols } := by
  intro q h2 hq
  have h0 := hinv q h2 hq
  rw [count_allPebs] at h0
  simp only [count_allPebs]
  have hA : (ebaPnums (updateVol vol_id
        (fun w => { w with eba := insertSorted (lnum, p0) w.eba }) st.vols)).count q +
        (v.eba.map (fun e => e.2)).count q =
      (ebaPnums st.vols).count q +
        ((insertSorted (lnum, p0) v.eba).map (fun e => e.2)).count q :=
    count_ebaPnums_updateVol _ hv q
  have hI : ((insertSorted (lnum, p0) v.eba).map (fun e => e.2)).count q =
      ((v.eba.map (fun e => e.2)).count q) + (if q = p0 then 1 else 0) :=
    count_map_insertSorted (lnum, p0) v.eba q
  have hF : (st.free_pebs.map (fun e => e.2)).count q =
      ((rest.map (fun e => e.2)).count q) + (if q = p0 then 1 else 0) := by
    rw [hfree]
    simp only [List.map_cons, List.count_cons, beq_iff_eq]
    by_cases hqp : q = p0
    · simp [hqp]
    · simp [eq_comm, hqp]
  omega

theorem partInv_write_remap (nr : Nat) (st : DeviceState)
    (vol_id lnum k0 p0 g p_old ec_old : Nat)
    (rest : List (Nat × Nat)) (v : Volume)
    (hv : findVol vol_id st.vols = some v)
    (hfree : st.free_pebs = (k0, p0) :: rest)
    (hlk : lookupKey lnum v.eba = some p_old)
    (hinv : partInv nr st) :
    partInv nr
      { st with
        free_pebs := rest
        global_seqnr := g
        dirty_pebs := insertSorted (ec_old, p_old) st.dirty_pebs
        vols := updateVol vol_id
          (fun w => { w with eba := insertSorted (lnum, p0) w.eba })
          (updateVol vol_id
            (fun w => { w with eba := eraseKey lnum w.eba }) st.vols) } := by
  intro q h2 hq
  have h0 := hinv q h2 hq
  rw [count_allPebs] at h0
  simp only [count_allPebs]
  have hA1 : (ebaPnums (updateVol vol_id
        (fun w => { w with eba := eraseKey lnum w.eba }) st.vols)).count q +
        (v.eba.map (fun e => e.2)).count q =
      (ebaPnums st.vols).count q +
        ((eraseKey lnum v.eba).map (fun e => e.2)).count q :=
    count_ebaPnums_updateVol _ hv q
  have hA2 : (ebaPnums (updateVol vol_id
        (fun w => { w with eba := insertSorted (lnum, p0) w.eba })
        (updateVol vol_id
          (fun w => { w with eba := eraseKey lnum w.eba }) st.vols))).count q +
        ((eraseKey lnum v.eba).map (fun e => e.2)).count q =
      (ebaPnums (updateVol vol_id
        (fun w => { w with eba := eraseKey lnum w.eba }) st.vols)).count q +
        ((insertSorted (lnum, p0) (eraseKey lnum v.eba)).map (fun e => e.2)).count q :=
    count_ebaPnums_updateVol _
      (findVol_updateVol_some vol_id
        (fun w => { w with eba := eraseKey lnum w.eba }) (fun w => rfl) hv) q
  have hI : ((insertSorted (lnum, p0) (eraseKey lnum v.eba)).map
        (fun e => e.2)).count q =
      (((eraseKey lnum v.eba).map (fun e => e.2)).count q) +
        (if q = p0 then 1 else 0) :=
    count_map_insertSorted (lnum, p0) (eraseKey lnum v.eba) q
  have hE : (v.eba.map (fun e => e.2)).count q =
      (((eraseKey lnum v.eba).map (fun e => e.2)).count q) +
        (if q = p_old then 1 else 0) :=
    count_map_eraseKey hlk q
  have hD : ((insertSorted (ec_old, p_old) st.dirty_pebs).map
        (fun e => e.2)).count q =
      ((st.dirty_pebs.map (fun e => e.2)).count q) +
        (if q = p_old then 1 else 0) :=
    count_map_insertSorted (ec_old, p_old) st.dirty_pebs q
  have hF : (st.free_pebs.map (fun e => e.2)).count q =
      ((rest.map (fun e => e.2)).count q) + (if q = p0 then 1 else 0) := by
    rw [hfree]
    simp only [List.map_cons, List.count_cons, beq_iff_eq]
    by_cases hqp : q = p0
    · simp [hqp]
    · simp [eq_comm, hqp]
  omega

theorem partInv_unmap_shape (nr : Nat) (st : DeviceState) (vol_id lnum p ec : Nat)
    (v : Volume)
    (hv : findVol vol_id st.vols = some v)
    (hlk : lookupKey lnum v.eba = some p)
    (hinv : partInv nr st) :
    partInv nr
      { st with
        vols := updateVol vol_id
          (fun w => { w with eba := eraseKey lnum w.eba }) st.vols
        dirty_pebs := insertSorted (ec, p) st.dirty_pebs } := by
  intro q h2 hq
  have h0 := hinv q h2 hq
  rw [count_allPebs] at h0
  simp only [count_allPebs]
  have hA : (ebaPnums (updateVol vol_id
        (fun w => { w with eba := eraseKey lnum w.eba }) st.vols)).count q +
        (v.eba.map (fun e => e.2)).count q =
      (ebaPnums st.vols).count q +
        ((eraseKey lnum v.eba).map (fun e => e.2)).count q :=
    count_ebaPnums_updateVol _ hv q
  have hE : (v.eba.map (fun e => e.2)).count q =
      (((eraseKey lnum v.eba).map (fun e => e.2)).count q) +
        (if q = p then 1 else 0) :=
    count_map_eraseKey hlk q
  have hD : ((insertSorted (ec, p) st.dirty_pebs).map (fun e => e.2)).count q =
      ((st.dirty_pebs.map (fun e => e.2)).count q) + (if q = p then 1 else 0) :=
    count_map_insertSorted (ec, p) st.dirty_pebs q
  omega

theorem partInv_erase_shape (nr : Nat) (st : DeviceState) (k p e1 : Nat)
    (rest : List (Nat × Nat))
    (hd : st.dirty_pebs = (k, p) :: rest)
    (hinv : partInv nr st) :
    partInv nr
      { st with
        dirty_pebs := rest
        free_pebs := insertSorted (e1, p) st.free_pebs } := by
  intro q h2 hq
  have h0 := hinv q h2 hq
  rw [count_allPebs] at h0
  simp only [count_allPebs]
  have hD : (st.dirty_pebs.map (fun e => e.2)).count q =
      ((rest.map (fun e => e.2)).count q) + (if q = p then 1 else 0) := by
    rw [hd]
    simp only [List.map_cons, List.count_cons, beq_iff_eq]
    by_cases hqp : q = p
    · simp [hqp]
    · simp [eq_comm, hqp]
  have hF : ((insertSorted (e1, p) st.free_pebs).map (fun e => e.2)).count q =
      ((st.free_pebs.map (fun e => e.2)).count q) + (if q = p then 1 else 0) :=
    count_map_insertSorted (e1, p) st.free_pebs q
  omega

theorem ebaPnums_append (a b : List Volume) :
    ebaPnums (a ++ b) = ebaPnums a ++ ebaPnums b := by
  induction a with
  | nil => rfl
  | cons v vs ih => simp [ebaPnums, ih]

theorem partInv_newVol_shape (nr : Nat) (st : DeviceState) (vol : Volume) (s : Nat)
    (hemp : vol.eba = []) (hinv : partInv nr st) :
    partInv nr { st with vols := st.vols ++ [vol], vols_seqnr := s } := by
  intro q h2 hq
  have h0 := hinv q h2 hq
  rw [count_allPebs] at h0
  simp only [count_allPebs, ebaPnums_append]
  simp only [ebaPnums, hemp, List.map_nil, List.nil_append, List.append_nil,
    List.count_append, List.count_nil]
  omega

/-- The VID-header write failure of leb_write: the free head is already
consumed and the sqnum drawn, then the function returns -EIO with no
bookkeeping for the new PEB. -/
theorem lebWriteAlloc_vid_fault (nr ebs : Nat) (wf : WriteFaults) (st : DeviceState)
    (media : Media) (vol_id lnum k0 p0 : Nat) (rest : List (Nat × Nat))
    (buf : Option (List Nat)) (len : Nat)
    (hfree : st.free_pebs = (k0, p0) :: rest)
    (hvf : wf.vid_fail = true) :
    lebWriteAlloc nr ebs wf st media vol_id lnum buf len =
      ({ st with free_pebs := rest, global_seqnr := st.global_seqnr + 1 },
       media, retEio) := by
  simp [lebWriteAlloc, hfree, hvf]

/-- The payload write failure of leb_write: same state shape, the VID header
already sits on the new PEB. -/
theorem lebWriteAlloc_data_fault (nr ebs : Nat) (st : DeviceState)
    (media : Media) (vol_id lnum k0 p0 : Nat) (rest : List (Nat × Nat))
    (b : List Nat) (len : Nat)
    (hfree : st.free_pebs = (k0, p0) :: rest)
    (hp1 : ¬ nr < p0) (hp0 : p0 ≠ 0) (hp01 : p0 ≠ 1)
    (hb : b ≠ []) :
    lebWriteAlloc nr ebs ⟨false, true⟩ st media vol_id lnum (some b) len =
      ({ st with free_pebs := rest, global_seqnr := st.global_seqnr + 1 },
       vidSet media p0
         { lnum := lnum, vol_id := vol_id, sqnum := st.global_seqnr,
           data_size := len },
       retEio) := by
  have hblen : b.length > 0 := List.length_pos.mpr hb
  simp [lebWriteAlloc, hfree, vidHdrWrite, hp1, hp0, hp01, hblen]

theorem partInv_leak_nomap (nr : Nat) (st : DeviceState) (k0 p0 g : Nat)
    (rest : List (Nat × Nat))
    (hfree : st.free_pebs = (k0, p0) :: rest)
    (hinv : partInv nr st)
    (h2 : UBI_DEV_HDR_NR_OF_RES_PEBS ≤ p0) (hq : p0 < nr) :
    (allPebs { st with free_pebs := rest, global_seqnr := g }).count p0 = 0 := by
  have h0 := hinv p0 h2 hq
  rw [count_allPebs] at h0
  simp only [count_allPebs]
  have hF : (st.free_pebs.map (fun e => e.2)).count p0 =
      ((rest.map (fun e => e.2)).count p0) + 1 := by
    rw [hfree]
    simp only [List.map_cons, List.count_cons, beq_iff_eq]
    simp
  omega

theorem partInv_leak_remap (nr : Nat) (st : DeviceState)
    (vol_id lnum k0 p0 g p_old ec_old : Nat)
    (rest : List (Nat × Nat)) (v : Volume)
    (hv : findVol vol_id st.vols = some v)
    (hfree : st.free_pebs = (k0, p0) :: rest)
    (hlk : lookupKey lnum v.eba = some p_old)
    (hinv : partInv nr st)
    (h2 : UBI_DEV_HDR_NR_OF_RES_PEBS ≤ p0) (hq : p0 < nr) :
    (allPebs
      { st with
        vols := updateVol vol_id
          (fun w => { w with eba := eraseKey lnum w.eba }) st.vols
        dirty_pebs := insertSorted (ec_old, p_old) st.dirty_pebs
        free_pebs := rest
        global_seqnr := g }).count p0 = 0 := by
  have h0 := hinv p0 h2 hq
  rw [count_allPebs] at h0
  simp only [count_allPebs]
  have hA : (ebaPnums (updateVol vol_id
        (fun w => { w with eba := eraseKey lnum w.eba }) st.vols)).count p0 +
        (v.eba.map (fun e => e.2)).count p0 =
      (ebaPnums st.vols).count p0 +
        ((eraseKey lnum v.eba).map (fun e => e.2)).count p0 :=
    count_ebaPnums_updateVol _ hv p0
  have hE : (v.eba.map (fun e => e.2)).count p0 =
      (((eraseKey lnum v.eba).map (fun e => e.2)).count p0) +
        (if p0 = p_old then 1 else 0) :=
    count_map_eraseKey hlk p0
  have hD : ((insertSorted (ec_old, p_old) st.dirty_pebs).map
        (fun e => e.2)).count p0 =
      ((st.dirty_pebs.map (fun e => e.2)).count p0) +
        (if p0 = p_old then 1 else 0) :=
    count_map_insertSorted (ec_old, p_old) st.dirty_pebs p0
  have hF : (st.free_pebs.map (fun e => e.2)).count p0 =
      ((rest.map (fun e => e.2)).count p0) + 1 := by
    rw [hfree]
    simp only [List.map_cons, List.count_cons, beq_iff_eq]
    simp
  omega

/-- C3 (amended): the PEB-partition invariant (each usable PEB counted
exactly once across EBA tables, free, dirty and bad) is preserved by every
successful leb_write and leb_map, by every leb_unmap call whatever its
outcome, by every ubi_volume_create call whatever its outcome, and by
device_erase_peb when no flash operation fails.  The original claim fails on
the error paths.  When the EC-header read, the erase, or the EC-header
rewrite inside device_erase_peb fails, the PEB is appended to the bad list
while the dirty pool is left unchanged, so its occurrence count rises by one
(sixth conjunct, see c3_counterexample for the concrete breakage).  When the
VID-header write fails inside leb_write or leb_map, or the payload write
fails inside leb_write, the PEB already taken from the free pool is recorded
nowhere and its occurrence count drops to zero (seventh and eighth
conjuncts). -/
theorem c3_partition_preservation :
    (∀ (nr ebs : Nat) (st : DeviceState) (media : Media) (vol_id lnum : Nat)
       (b : List Nat) (v : Volume) (k0 p0 : Nat) (rest : List (Nat × Nat)),
      findVol vol_id st.vols = some v →
      lnum ≤ v.cfg.leb_count →
      st.free_pebs = (k0, p0) :: rest →
      ¬ nr < p0 → p0 ≠ 0 → p0 ≠ 1 →
      b ≠ [] → b.length ≤ lebMax ebs →
      (∀ p_old, lookupKey lnum v.eba = some p_old →
        (¬ nr < p_old ∧ p_old ≠ 0 ∧ p_old ≠ 1) ∧
          ∃ ec_old, (media.peb p_old).ec = some ec_old) →
      partInv nr st →
      partInv nr
        (ubiLebWrite nr ebs ⟨false, false⟩ st media vol_id lnum (some b)).1) ∧
    (∀ (nr ebs : Nat) (st : DeviceState) (media : Media) (vol_id lnum : Nat)
       (v : Volume) (k0 p0 : Nat) (rest : List (Nat × Nat)),
      findVol vol_id st.vols = some v →
      lnum ≤ v.cfg.leb_count →
      st.free_pebs = (k0, p0) :: rest →
      ¬ nr < p0 → p0 ≠ 0 → p0 ≠ 1 →
      (∀ p_old, lookupKey lnum v.eba = some p_old →
        (¬ nr < p_old ∧ p_old ≠ 0 ∧ p_old ≠ 1) ∧
          ∃ ec_old, (media.peb p_old).ec = some ec_old) →
      partInv nr st →
      partInv nr (ubiLebMap nr ebs ⟨false, false⟩ st media vol_id lnum).1) ∧
    (∀ (nr : Nat) (st : DeviceState) (media : Media) (vol_id lnum : Nat),
      partInv nr st →
      partInv nr (ubiLebUnmap nr st media vol_id lnum).1) ∧
    (∀ (nr maxVols : Nat) (st : DeviceState) (banks : Banks)
       (cfg : VolumeConfig),
      partInv nr st →
      partInv nr (ubiVolumeCreate nr maxVols st banks cfg).1) ∧
    (∀ (nr ebs : Nat) (st : DeviceState) (media : Media) (k p e : Nat)
       (rest : List (Nat × Nat)),
      st.dirty_pebs = (k, p) :: rest →
      (media.peb p).ec = some e → ¬ nr < p → p ≠ 0 → p ≠ 1 →
      partInv nr st →
      partInv nr (ubiDeviceErasePeb nr ebs ⟨false, false, false⟩ st media).1) ∧
    (∀ (nr ebs : Nat) (ef : EraseFaults) (st : DeviceState) (media : Media)
       (k p : Nat) (rest : List (Nat × Nat)),
      st.dirty_pebs = (k, p) :: rest →
      ((∃ err, ecHdrRead nr media p = Except.error err) ∨
        (∃ e, ecHdrRead nr media p = Except.ok e ∧
          ef.open_fail = false ∧ ef.erase_fail = true) ∨
        (∃ e, ecHdrRead nr media p = Except.ok e ∧ ef = ⟨false, false, true⟩)) →
      (ubiDeviceErasePeb nr ebs ef st media).1.dirty_pebs = st.dirty_pebs ∧
      (allPebs (ubiDeviceErasePeb nr ebs ef st media).1).count p =
        (allPebs st).count p + 1) ∧
    (∀ (nr ebs : Nat) (wf : WriteFaults) (st : DeviceState) (media : Media)
       (vol_id lnum : Nat) (b : List Nat) (v : Volume) (k0 p0 : Nat)
       (rest : List (Nat × Nat)),
      findVol vol_id st.vols = some v →
      lnum ≤ v.cfg.leb_count →
      st.free_pebs = (k0, p0) :: rest →
      b ≠ [] → b.length ≤ lebMax ebs →
      (∀ p_old, lookupKey lnum v.eba = some p_old →
        (¬ nr < p_old ∧ p_old ≠ 0 ∧ p_old ≠ 1) ∧
          ∃ ec_old, (media.peb p_old).ec = some ec_old) →
      (wf.vid_fail = true ∨
        (wf = ⟨false, true⟩ ∧ ¬ nr < p0 ∧ p0 ≠ 0 ∧ p0 ≠ 1)) →
      partInv nr st →
      UBI_DEV_HDR_NR_OF_RES_PEBS ≤ p0 → p0 < nr →
      (ubiLebWrite nr ebs wf st media vol_id lnum (some b)).2.2 = retEio ∧
      (allPebs (ubiLebWrite nr ebs wf st media vol_id lnum
        (some b)).1).count p0 = 0) ∧
    (∀ (nr ebs : Nat) (wf : WriteFaults) (st : DeviceState) (media : Media)
       (vol_id lnum : Nat) (v : Volume) (k0 p0 : Nat) (rest : List (Nat × Nat)),
      findVol vol_id st.vols = some v →
      lnum ≤ v.cfg.leb_count →
      st.free_pebs = (k0, p0) :: rest →
      (∀ p_old, lookupKey lnum v.eba = some p_old →
        (¬ nr < p_old ∧ p_old ≠ 0 ∧ p_old ≠ 1) ∧
          ∃ ec_old, (media.peb p_old).ec = some ec_old) →
      wf.vid_fail = true →
      partInv nr st →
      UBI_DEV_HDR_NR_OF_RES_PEBS ≤ p0 → p0 < nr →
      (ubiLebMap nr ebs wf st media vol_id lnum).2.2 = retEio ∧
      (allPebs (ubiLebMap nr ebs wf st media vol_id lnum).1).count p0 = 0) := by
  refine ⟨?_, ?_, ?_, ?_, ?_, ?_, ?_, ?_⟩
  · intro nr ebs st media vol_id lnum b v k0 p0 rest hv hlnum hfree hp1 hp0 hp01
      hb hblen hold hinv
    have hl : ¬ lnum > v.cfg.leb_count := Nat.not_lt.mpr hlnum
    have hfree_len : st.free_pebs.length ≠ 0 := by rw [hfree]; simp
    have hlen' : ¬ bufLen (some b) > lebMax ebs := by
      simpa [bufLen] using Nat.not_lt.mpr hblen
    have hbl : b.length ≠ 0 := by simpa using hb
    have hwrap : ubiLebWrite nr ebs ⟨false, false⟩ st media vol_id lnum (some b) =
        lebWrite nr ebs ⟨false, false⟩ st media vol_id lnum (some b) := by
      simp [ubiLebWrite, hbl]
    cases hlk : lookupKey lnum v.eba with
    | none =>
      have heq := lebWrite_eq_alloc_nomap nr ebs ⟨false, false⟩ st media vol_id
        lnum v (some b) hv hl hfree_len hlen' hlk
      have hspec := lebWriteAlloc_spec nr ebs st media vol_id lnum k0 p0 rest
        (some b) hfree hp1 hp0 hp01 (Or.inr ⟨b, rfl, hb, hblen⟩)
      rw [hwrap, heq, hspec]
      exact partInv_write_nomap nr st vol_id lnum k0 p0 _ rest v hv hfree hinv
    | some p_old =>
      obtain ⟨⟨hpo1, hpo0, hpo01⟩, ec_old, hec⟩ := hold p_old hlk
      have heq := lebWrite_eq_alloc_remap nr ebs ⟨false, false⟩ st media vol_id
        lnum p_old ec_old v (some b) hv hl hfree_len hlen' hlk hpo1 hpo0 hpo01 hec
      have hspec := lebWriteAlloc_spec nr ebs
        { st with
          vols := updateVol vol_id
            (fun w => { w with eba := eraseKey lnum w.eba }) st.vols
          dirty_pebs := insertSorted (ec_old, p_old) st.dirty_pebs }
        media vol_id lnum k0 p0 rest (some b)
        hfree hp1 hp0 hp01 (Or.inr ⟨b, rfl, hb, hblen⟩)
      rw [hwrap, heq, hspec]
      exact partInv_write_remap nr st vol_id lnum k0 p0 _ p_old ec_old rest v
        hv hfree hlk hinv
  · intro nr ebs st media vol_id lnum v k0 p0 rest hv hlnum hfree hp1 hp0 hp01
      hold hinv
    have hl : ¬ lnum > v.cfg.leb_count := Nat.not_lt.mpr hlnum
    have hfree_len : st.free_pebs.length ≠ 0 := by rw [hfree]; simp
    have hlen' : ¬ bufLen none > lebMax ebs := by simp [bufLen]
    cases hlk : lookupKey lnum v.eba with
    | none =>
      have heq := lebWrite_eq_alloc_nomap nr ebs ⟨false, false⟩ st media vol_id
        lnum v none hv hl hfree_len hlen' hlk
      have hspec := lebWriteAlloc_spec nr ebs st media vol_id lnum k0 p0 rest
        none hfree hp1 hp0 hp01 (Or.inl rfl)
      simp only [ubiLebMap]
      rw [heq, hspec]
      exact partInv_write_nomap nr st vol_id lnum k0 p0 _ rest v hv hfree hinv
    | some p_old =>
      obtain ⟨⟨hpo1, hpo0, hpo01⟩, ec_old, hec⟩ := hold p_old hlk
      have heq := lebWrite_eq_alloc_remap nr ebs ⟨false, false⟩ st media vol_id
        lnum p_old ec_old v none hv hl hfree_len hlen' hlk hpo1 hpo0 hpo01 hec
      have hspec := lebWriteAlloc_spec nr ebs
        { st with
          vols := updateVol vol_id
            (fun w => { w with eba := eraseKey lnum w.eba }) st.vols
          dirty_pebs := insertSorted (ec_old, p_old) st.dirty_pebs }
        media vol_id lnum k0 p0 rest none
        hfree hp1 hp0 hp01 (Or.inl rfl)
      simp only [ubiLebMap]
      rw [heq, hspec]
      exact partInv_write_remap nr st vol_id lnum k0 p0 _ p_old ec_old rest v
        hv hfree hlk hinv
  · intro nr st media vol_id lnum hinv
    simp only [ubiLebUnmap]
    split
    · exact hinv
    · split
      · exact hinv
      · next vol hvol =>
        split
        · exact hinv
        · split
          · exact hinv
          · next p hlk =>
            split
            · exact hinv
            · next ec hec =>
              exact partInv_unmap_shape nr st vol_id lnum p ec vol hvol hlk hinv
  · intro nr maxVols st banks cfg hinv
    simp only [ubiVolumeCreate]
    split
    · exact hinv
    · split
      · exact hinv
      · split
        · exact hinv
        · exact partInv_newVol_shape nr st _ (st.vols_seqnr + 1) rfl hinv
  · intro nr ebs st media k p e rest hd hec hb1 hb0 hb01 hinv
    have her : ubiDeviceErasePeb nr ebs ⟨false, false, false⟩ st media =
        ({ st with
           dirty_pebs := rest
           free_pebs := insertSorted (e + 1, p) st.free_pebs },
         ecSet (eraseBlock media ebs p) p (e + 1), 0) := by
      simp [ubiDeviceErasePeb, hd, ecHdrRead, hb1, hb0, hb01, hec]
    rw [her]
    exact partInv_erase_shape nr st k p (e + 1) rest hd hinv
  · intro nr ebs ef st media k p rest hd hfault
    have hbump : ∀ (s : DeviceState),
        (allPebs { s with bad_pebs := s.bad_pebs ++ [(p, k)] }).count p =
          (allPebs s).count p + 1 := by
      intro s
      rw [count_allPebs, count_allPebs]
      simp only [List.map_append, List.count_append, List.map_cons, List.map_nil,
        List.count_cons, List.count_nil, beq_iff_eq]
      simp
      omega
    rcases hfault with ⟨err, herr⟩ | ⟨e, hok, hopen, hef⟩ | ⟨e, hok, hef⟩
    · have her : ubiDeviceErasePeb nr ebs ef st media =
          ({ st with bad_pebs := st.bad_pebs ++ [(p, k)] }, media, 0) := by
        simp [ubiDeviceErasePeb, hd, herr]
      rw [her]
      exact ⟨rfl, hbump st⟩
    · have her : ubiDeviceErasePeb nr ebs ef st media =
          ({ st with bad_pebs := st.bad_pebs ++ [(p, k)] }, media, 0) := by
        simp [ubiDeviceErasePeb, hd, hok, hopen, hef]
      rw [her]
      exact ⟨rfl, hbump st⟩
    · subst hef
      have her : ubiDeviceErasePeb nr ebs ⟨false, false, true⟩ st media =
          ({ st with bad_pebs := st.bad_pebs ++ [(p, k)] },
           eraseBlock media ebs p, 0) := by
        simp [ubiDeviceErasePeb, hd, hok]
      rw [her]
      exact ⟨rfl, hbump st⟩
  · intro nr ebs wf st media vol_id lnum b v k0 p0 rest hv hlnum hfree hb hblen
      hold hfault hinv h2 hq
    have hl : ¬ lnum > v.cfg.leb_count := Nat.not_lt.mpr hlnum
    have hfree_len : st.free_pebs.length ≠ 0 := by rw [hfree]; simp
    have hlen' : ¬ bufLen (some b) > lebMax ebs := by
      simpa [bufLen] using Nat.not_lt.mpr hblen
    have hbl : b.length ≠ 0 := by simpa using hb
    have hwrap : ubiLebWrite nr ebs wf st media vol_id lnum (some b) =
        lebWrite nr ebs wf st media vol_id lnum (some b) := by
      simp [ubiLebWrite, hbl]
    cases hlk : lookupKey lnum v.eba with
    | none =>
      have heq := lebWrite_eq_alloc_nomap nr ebs wf st media vol_id lnum v
        (some b) hv hl hfree_len hlen' hlk
      rcases hfault with hvf | ⟨hwf, hp1, hp0, hp01⟩
      · have hal := lebWriteAlloc_vid_fault nr ebs wf st media vol_id lnum
          k0 p0 rest (some b) (bufLen (some b)) hfree hvf
        rw [hwrap, heq, hal]
        exact ⟨rfl, partInv_leak_nomap nr st k0 p0 _ rest hfree hinv h2 hq⟩
      · subst hwf
        have hal := lebWriteAlloc_data_fault nr ebs st media vol_id lnum
          k0 p0 rest b (bufLen (some b)) hfree hp1 hp0 hp01 hb
        rw [hwrap, heq, hal]
        exact ⟨rfl, partInv_leak_nomap nr st k0 p0 _ rest hfree hinv h2 hq⟩
    | some p_old =>
      obtain ⟨⟨hpo1, hpo0, hpo01⟩, ec_old, hec⟩ := hold p_old hlk
      have heq := lebWrite_eq_alloc_remap nr ebs wf st media vol_id lnum
        p_old ec_old v (some b) hv hl hfree_len hlen' hlk hpo1 hpo0 hpo01 hec
      rcases hfault with hvf | ⟨hwf, hp1, hp0, hp01⟩
      · have hal := lebWriteAlloc_vid_fault nr ebs wf
          { st with
            vols := updateVol vol_id
              (fun w => { w with eba := eraseKey lnum w.eba }) st.vols
            dirty_pebs := insertSorted (ec_old, p_old) st.dirty_pebs }
          media vol_id lnum k0 p0 rest (some b) (bufLen (some b)) hfree hvf
        rw [hwrap, heq, hal]
        exact ⟨rfl, partInv_leak_remap nr st vol_id lnum k0 p0 _ p_old ec_old
          rest v hv hfree hlk hinv h2 hq⟩
      · subst hwf
        have hal := lebWriteAlloc_data_fault nr ebs
          { st with
            vols := updateVol vol_id
              (fun w => { w with eba := eraseKey lnum w.eba }) st.vols
            dirty_pebs := insertSorted (ec_old, p_old) st.dirty_pebs }
          media vol_id lnum k0 p0 rest b (bufLen (some b)) hfree hp1 hp0 hp01 hb
        rw [hwrap, heq, hal]
        exact ⟨rfl, partInv_leak_remap nr st vol_id lnum k0 p0 _ p_old ec_old
          rest v hv hfree hlk hinv h2 hq⟩
  · intro nr ebs wf st media vol_id lnum v k0 p0 rest hv hlnum hfree hold hvf
      hinv h2 hq
    have hl : ¬ lnum > v.cfg.leb_count := Nat.not_lt.mpr hlnum
    have hfree_len : st.free_pebs.length ≠ 0 := by rw [hfree]; simp
    have hlen' : ¬ bufLen none > lebMax ebs := by simp [bufLen]
    have hwrap : ubiLebMap nr ebs wf st media vol_id lnum =
        lebWrite nr ebs wf st media vol_id lnum none := rfl
    cases hlk : lookupKey lnum v.eba with
    | none =>
      have heq := lebWrite_eq_alloc_nomap nr ebs wf st media vol_id lnum v
        none hv hl hfree_len hlen' hlk
      have hal := lebWriteAlloc_vid_fault nr ebs wf st media vol_id lnum
        k0 p0 rest none (bufLen none) hfree hvf
      rw [hwrap, heq, hal]
      exact ⟨rfl, partInv_leak_nomap nr st k0 p0 _ rest hfree hinv h2 hq⟩
    | some p_old =>
      obtain ⟨⟨hpo1, hpo0, hpo01⟩, ec_old, hec⟩ := hold p_old hlk
      have heq := lebWrite_eq_alloc_remap nr ebs wf st media vol_id lnum
        p_old ec_old v none hv hl hfree_len hlen' hlk hpo1 hpo0 hpo01 hec
      have hal := lebWriteAlloc_vid_fault nr ebs wf
        { st with
          vols := updateVol vol_id
            (fun w => { w with eba := eraseKey lnum w.eba }) st.vols
          dirty_pebs := insertSorted (ec_old, p_old) st.dirty_pebs }
        media vol_id lnum k0 p0 rest none (bufLen none) hfree hvf
      rw [hwrap, heq, hal]
      exact ⟨rfl, partInv_leak_remap nr st vol_id lnum k0 p0 _ p_old ec_old
        rest v hv hfree hlk hinv h2 hq⟩

/-- A state whose PEB 2 is mapped by exVolMapped and PEB 3 is free. -/
def exStPart : DeviceState :=
  { vols := [exVolMapped], free_pebs := [(0, 3)], dirty_pebs := [], bad_pebs := [],
    global_seqnr := 1, vols_seqnr := 1 }

/-- A state whose PEB 2 is dirty and PEB 3 is free. -/
def exStDirtyFree : DeviceState :=
  { vols := [], free_pebs := [(0, 3)], dirty_pebs := [(0, 2)], bad_pebs := [],
    global_seqnr := 0, vols_seqnr := 0 }

/-- Witness for C3 (amended): the eight conjuncts applied on the four-PEB
fixtures, whose partition invariant holds before each call: successful
write, map, unmap, volume create and fault-free erase preserve it; an
EC-read, erase or EC-rewrite failure leaves PEB 2 counted twice; a failing
VID-header or payload write leaks free PEB 3 (count 0). -/
theorem c3_partition_witness :
    partInv 4 (ubiLebWrite 4 64 ⟨false, false⟩ exStPart exMediaDup 0 0
      (some [7, 7, 7])).1 ∧
    partInv 4 (ubiLebMap 4 64 ⟨false, false⟩ exStPart exMediaDup 0 1).1 ∧
    partInv 4 (ubiLebUnmap 4 exStPart exMediaDup 0 0).1 ∧
    partInv 4 (ubiVolumeCreate 4 8 exStPart { revision := 0, volhdrs := [] }
      { name := exName, vtype := 1, leb_count := 1 }).1 ∧
    partInv 4 (ubiDeviceErasePeb 4 64 ⟨false, false, false⟩ exStDirtyFree
      exMediaErased).1 ∧
    ((ubiDeviceErasePeb 4 64 ⟨false, false, false⟩ c3StDirty
        exMediaAllBad).1.dirty_pebs = c3StDirty.dirty_pebs ∧
      (allPebs (ubiDeviceErasePeb 4 64 ⟨false, false, false⟩ c3StDirty
        exMediaAllBad).1).count 2 = (allPebs c3StDirty).count 2 + 1) ∧
    ((ubiDeviceErasePeb 4 64 ⟨false, true, false⟩ exStDirtyFree
        exMediaErased).1.dirty_pebs = exStDirtyFree.dirty_pebs ∧
      (allPebs (ubiDeviceErasePeb 4 64 ⟨false, true, false⟩ exStDirtyFree
        exMediaErased).1).count 2 = (allPebs exStDirtyFree).count 2 + 1) ∧
    ((ubiDeviceErasePeb 4 64 ⟨false, false, true⟩ exStDirtyFree
        exMediaErased).1.dirty_pebs = exStDirtyFree.dirty_pebs ∧
      (allPebs (ubiDeviceErasePeb 4 64 ⟨false, false, true⟩ exStDirtyFree
        exMediaErased).1).count 2 = (allPebs exStDirtyFree).count 2 + 1) ∧
    ((ubiLebWrite 4 64 ⟨true, false⟩ exStPart exMediaDup 0 1
        (some [9])).2.2 = retEio ∧
      (allPebs (ubiLebWrite 4 64 ⟨true, false⟩ exStPart exMediaDup 0 1
        (some [9])).1).count 3 = 0) ∧
    ((ubiLebWrite 4 64 ⟨false, true⟩ exStPart exMediaDup 0 1
        (some [9])).2.2 = retEio ∧
      (allPebs (ubiLebWrite 4 64 ⟨false, true⟩ exStPart exMediaDup 0 1
        (some [9])).1).count 3 = 0) ∧
    ((ubiLebMap 4 64 ⟨true, false⟩ exStPart exMediaDup 0 2).2.2 = retEio ∧
      (allPebs (ubiLebMap 4 64 ⟨true, false⟩ exStPart exMediaDup 0
        2).1).count 3 = 0) := by
  have hpart : partInv 4 exStPart := by
    intro p h2 h4
    simp only [UBI_DEV_HDR_NR_OF_RES_PEBS] at h2
    have hp : p = 2 ∨ p = 3 := by omega
    rcases hp with rfl | rfl <;> decide
  have hdf : partInv 4 exStDirtyFree := by
    intro p h2 h4
    simp only [UBI_DEV_HDR_NR_OF_RES_PEBS] at h2
    have hp : p = 2 ∨ p = 3 := by omega
    rcases hp with rfl | rfl <;> decide
  refine ⟨?_, ?_, ?_, ?_, ?_, ?_, ?_, ?_, ?_, ?_, ?_⟩
  · exact c3_partition_preservation.1 4 64 exStPart exMediaDup 0 0 [7, 7, 7]
      exVolMapped 0 3 [] rfl (by decide) rfl (by decide) (by decide) (by decide)
      (by decide) (by decide)
      (by
        intro p_old h
        simp only [exVolMapped, lookupKey, if_true] at h
        cases h
        exact ⟨⟨by decide, by decide, by decide⟩, 5, rfl⟩)
      hpart
  · exact c3_partition_preservation.2.1 4 64 exStPart exMediaDup 0 1
      exVolMapped 0 3 [] rfl (by decide) rfl (by decide) (by decide) (by decide)
      (by
        intro p_old h
        simp [exVolMapped, lookupKey] at h)
      hpart
  · exact c3_partition_preservation.2.2.1 4 exStPart exMediaDup 0 0 hpart
  · exact c3_partition_preservation.2.2.2.1 4 8 exStPart
      { revision := 0, volhdrs := [] }
      { name := exName, vtype := 1, leb_count := 1 } hpart
  · exact c3_partition_preservation.2.2.2.2.1 4 64 exStDirtyFree exMediaErased
      0 2 0 [] rfl rfl (by decide) (by decide) (by decide) hdf
  · exact c3_partition_preservation.2.2.2.2.2.1 4 64 ⟨false, false, false⟩
      c3StDirty exMediaAllBad 0 2 [] rfl (Or.inl ⟨retEbadmsg, rfl⟩)
  · exact c3_partition_preservation.2.2.2.2.2.1 4 64 ⟨false, true, false⟩
      exStDirtyFree exMediaErased 0 2 [] rfl (Or.inr (Or.inl ⟨0, rfl, rfl, rfl⟩))
  · exact c3_partition_preservation.2.2.2.2.2.1 4 64 ⟨false, false, true⟩
      exStDirtyFree exMediaErased 0 2 [] rfl (Or.inr (Or.inr ⟨0, rfl, rfl⟩))
  · exact c3_partition_preservation.2.2.2.2.2.2.1 4 64 ⟨true, false⟩ exStPart
      exMediaDup 0 1 [9] exVolMapped 0 3 [] rfl (by decide) rfl (by decide)
      (by decide)
      (by intro p_old h; simp [exVolMapped, lookupKey] at h)
      (Or.inl rfl) hpart (by decide) (by decide)
  · exact c3_partition_preservation.2.2.2.2.2.2.1 4 64 ⟨false, true⟩ exStPart
      exMediaDup 0 1 [9] exVolMapped 0 3 [] rfl (by decide) rfl (by decide)
      (by decide)
      (by intro p_old h; simp [exVolMapped, lookupKey] at h)
      (Or.inr ⟨rfl, by decide, by decide, by decide⟩) hpart (by decide)
      (by decide)
  · exact c3_partition_preservation.2.2.2.2.2.2.2 4 64 ⟨true, false⟩ exStPart
      exMediaDup 0 2 exVolMapped 0 3 [] rfl (by decide) rfl
      (by intro p_old h; simp [exVolMapped, lookupKey] at h)
      rfl hpart (by decide) (by decide)

/-! Claim C4 (amended). -/

theorem ebaBound_erase_update (vol_id lnum : Nat) (st st' : DeviceState)
    (hv : st'.vols = updateVol vol_id
      (fun w => { w with eba := eraseKey lnum w.eba }) st.vols)
    (hb : ebaBound st) : ebaBound st' := by
  intro w hw e he
  rw [hv] at hw
  rcases mem_updateVol hw with h1 | ⟨v, hvm, rfl⟩
  · exact hb w h1 e he
  · exact hb v hvm e (mem_eraseKey he)

theorem ebaBound_lebWriteAlloc (nr ebs : Nat) (wf : WriteFaults) (st : DeviceState)
    (media : Media) (vol_id lnum : Nat) (buf : Option (List Nat)) (len : Nat)
    (v0 : Volume) (hfind : findVol vol_id st.vols = some v0)
    (hle : lnum ≤ v0.cfg.leb_count) (hb : ebaBound st) :
    ebaBound (lebWriteAlloc nr ebs wf st media vol_id lnum buf len).1 := by
  simp only [lebWriteAlloc]
  split
  · exact hb
  · split
    · exact hb
    · split
      · exact hb
      · split
        · split
          · split
            · exact hb
            · split
              · exact hb
              · intro w hw e he
                rcases mem_updateVol_of_findVol hfind hw with h1 | rfl
                · exact hb w h1 e he
                · rcases mem_insertSorted he with rfl | h2
                  · exact hle
                  · exact hb v0 (findVol_mem hfind) e h2
          · intro w hw e he
            rcases mem_updateVol_of_findVol hfind hw with h1 | rfl
            · exact hb w h1 e he
            · rcases mem_insertSorted he with rfl | h2
              · exact hle
              · exact hb v0 (findVol_mem hfind) e h2
        · intro w hw e he
          rcases mem_updateVol_of_findVol hfind hw with h1 | rfl
          · exact hb w h1 e he
          · rcases mem_insertSorted he with rfl | h2
            · exact hle
            · exact hb v0 (findVol_mem hfind) e h2

theorem ebaBound_lebWrite (nr ebs : Nat) (wf : WriteFaults) (st : DeviceState)
    (media : Media) (vol_id lnum : Nat) (buf : Option (List Nat))
    (hb : ebaBound st) :
    ebaBound (lebWrite nr ebs wf st media vol_id lnum buf).1 := by
  simp only [lebWrite]
  split
  · exact hb
  · split
    · exact hb
    · next vol hvol =>
      split
      · exact hb
      · next hguard =>
        split
        · exact hb
        · split
          · exact hb
          · split
            · next p_old hlk =>
              split
              · exact hb
              · next ec_old hec =>
                exact ebaBound_lebWriteAlloc nr ebs wf _ media vol_id lnum buf _
                  { vol with eba := eraseKey lnum vol.eba }
                  (findVol_updateVol_some vol_id
                    (fun v => { v with eba := eraseKey lnum v.eba })
                    (fun w => rfl) hvol)
                  (Nat.not_lt.mp hguard)
                  (ebaBound_erase_update vol_id lnum st _ rfl hb)
            · next hlk =>
              exact ebaBound_lebWriteAlloc nr ebs wf st media vol_id lnum buf _
                vol hvol (Nat.not_lt.mp hguard) hb

theorem ebaBound_ubiLebUnmap (nr : Nat) (st : DeviceState) (media : Media)
    (vol_id lnum : Nat) (hb : ebaBound st) :
    ebaBound (ubiLebUnmap nr st media vol_id lnum).1 := by
  simp only [ubiLebUnmap]
  split
  · exact hb
  · split
    · exact hb
    · split
      · exact hb
      · split
        · exact hb
        · split
          · exact hb
          · exact ebaBound_erase_update vol_id lnum st _ rfl hb

/-- C4 (amended): every LEB-level operation called with lnum strictly greater
than the volume LEB count fails with -EACCES (Denied) without changing any
state; and the invariant that every EBA key k satisfies k LESS-OR-EQUAL the
volume LEB count (the original strict bound fails at lnum = leb_count, see
c4_counterexample) is preserved by leb_write and leb_map on every path, and
by leb_unmap on every path. -/
theorem c4_guard_and_key_bound :
    (∀ (nr ebs : Nat) (wf : WriteFaults) (st : DeviceState) (media : Media)
       (vol_id lnum off size : Nat) (b : List Nat) (v : Volume),
      findVol vol_id st.vols = some v → v.cfg.leb_count < lnum →
      (b ≠ [] → ubiLebWrite nr ebs wf st media vol_id lnum (some b) =
        (st, media, retEacces)) ∧
      ubiLebMap nr ebs wf st media vol_id lnum = (st, media, retEacces) ∧
      (size ≠ 0 → ubiLebRead nr ebs st media vol_id lnum off size =
        (retEacces, [])) ∧
      ubiLebUnmap nr st media vol_id lnum = (st, retEacces) ∧
      ubiLebIsMapped st vol_id lnum = (retEacces, false) ∧
      ubiLebGetSize nr st media vol_id lnum = (retEacces, 0)) ∧
    (∀ (nr ebs : Nat) (wf : WriteFaults) (st : DeviceState) (media : Media)
       (vol_id lnum : Nat) (buf : Option (List Nat)),
      ebaBound st → ebaBound (lebWrite nr ebs wf st media vol_id lnum buf).1) ∧
    (∀ (nr : Nat) (st : DeviceState) (media : Media) (vol_id lnum : Nat),
      ebaBound st → ebaBound (ubiLebUnmap nr st media vol_id lnum).1) := by
  refine ⟨?_, ?_, ?_⟩
  · intro nr ebs wf st media vol_id lnum off size b v hv hlt
    have hne := findVol_ne_nil hv
    refine ⟨?_, ?_, ?_, ?_, ?_, ?_⟩
    · intro hb
      have hbl : b.length ≠ 0 := by simpa using hb
      simp [ubiLebWrite, hbl, lebWrite, hne, hv, hlt]
    · simp [ubiLebMap, lebWrite, hne, hv, hlt]
    · intro hs
      simp [ubiLebRead, hs, hne, hv, hlt]
    · simp [ubiLebUnmap, hne, hv, hlt]
    · simp [ubiLebIsMapped, hne, hv, hlt]
    · simp [ubiLebGetSize, hne, hv, hlt]
  · intro nr ebs wf st media vol_id lnum buf hb
    exact ebaBound_lebWrite nr ebs wf st media vol_id lnum buf hb
  · intro nr st media vol_id lnum hb
    exact ebaBound_ubiLebUnmap nr st media vol_id lnum hb

/-- Witness for C4 (amended): the six guard equalities at lnum = 5 on the
one-LEB volume of exSt1, and the key bound after a write and an unmap. -/
theorem c4_guard_witness :
    (ubiLebWrite 4 64 ⟨false, false⟩ exSt1 exMediaErased 0 5 (some [1]) =
      (exSt1, exMediaErased, retEacces) ∧
     ubiLebMap 4 64 ⟨false, false⟩ exSt1 exMediaErased 0 5 =
      (exSt1, exMediaErased, retEacces) ∧
     ubiLebRead 4 64 exSt1 exMediaErased 0 5 0 8 = (retEacces, []) ∧
     ubiLebUnmap 4 exSt1 exMediaErased 0 5 = (exSt1, retEacces) ∧
     ubiLebIsMapped exSt1 0 5 = (retEacces, false) ∧
     ubiLebGetSize 4 exSt1 exMediaErased 0 5 = (retEacces, 0)) ∧
    ebaBound (lebWrite 4 64 ⟨false, false⟩ exSt1 exMediaErased 0 0
      (some [1])).1 ∧
    ebaBound (ubiLebUnmap 4 exSt1 exMediaErased 0 0).1 := by
  have hb : ebaBound exSt1 := by
    intro v hv e he
    simp only [exSt1, List.mem_singleton] at hv
    subst hv
    simp [exVol1] at he
  have hguards := c4_guard_and_key_bound.1 4 64 ⟨false, false⟩ exSt1 exMediaErased
    0 5 0 8 [1] exVol1 rfl (by decide)
  exact ⟨⟨hguards.1 (by decide), hguards.2.1, hguards.2.2.1 (by decide),
    hguards.2.2.2.1, hguards.2.2.2.2.1, hguards.2.2.2.2.2⟩,
    c4_guard_and_key_bound.2.1 4 64 ⟨false, false⟩ exSt1 exMediaErased 0 0
      (some [1]) hb,
    c4_guard_and_key_bound.2.2 4 exSt1 exMediaErased 0 0 hb⟩

/-! Claim C10. -/

/-- C10: ubi_leb_read on a mapped LEB ignores the data_size recorded in the
mapped PEB VID header (the header hypothesis quantifies over an arbitrary
recorded header): for every size > 0 with offset + size within LEB_MAX the
read succeeds and returns the raw bytes of the PEB payload area, and when
offset + size exceeds LEB_MAX the read is refused with -ENOSPC. -/
theorem c10_read_ignores_data_size :
    ∀ (nr ebs : Nat) (st : DeviceState) (media : Media)
      (vol_id lnum off size p : Nat) (v : Volume) (vh : VidHdr),
      findVol vol_id st.vols = some v →
      ¬ lnum > v.cfg.leb_count →
      lookupKey lnum v.eba = some p →
      ¬ nr < p → p ≠ 0 → p ≠ 1 →
      (media.peb p).vid = VidState.valid vh →
      size ≠ 0 →
      (off + size ≤ lebMax ebs →
        ubiLebRead nr ebs st media vol_id lnum off size =
          (0, readBytes media.mem (lebDataOff ebs p + off) size)) ∧
      (lebMax ebs < off + size →
        ubiLebRead nr ebs st media vol_id lnum off size = (retEnospc, [])) := by
  intro nr ebs st media vol_id lnum off size p v vh hv hl hp hb1 hb0 hb01 _hvid hsz
  constructor
  · intro hle
    simp [ubiLebRead, findVol_ne_nil hv, hv, hl, hp, lebDataRead, hsz, hb1, hb0,
      hb01, Nat.not_lt.mpr hle]
  · intro hgt
    simp [ubiLebRead, findVol_ne_nil hv, hv, hl, hp, lebDataRead, hsz, hb1, hb0,
      hb01, hgt]

/-! Claim C5. -/

theorem read_after_agree (nr ebs : Nat) (st2 : DeviceState) (media2 : Media)
    (vol_id lnum p0 : Nat) (b : List Nat) (v2 : Volume)
    (hv2 : findVol vol_id st2.vols = some v2)
    (hl2 : ¬ lnum > v2.cfg.leb_count)
    (hlk2 : lookupKey lnum v2.eba = some p0)
    (hp1 : ¬ nr < p0) (hp0 : p0 ≠ 0) (hp01 : p0 ≠ 1)
    (hb : b ≠ []) (hlen : b.length ≤ lebMax ebs)
    (hagree : ∀ i, i < b.length →
      media2.mem (lebDataOff ebs p0 + i) = byteAt b i) :
    ubiLebRead nr ebs st2 media2 vol_id lnum 0 b.length = (0, b) := by
  have hbl : b.length ≠ 0 := by simpa using hb
  have hbnd : ¬ lebMax ebs < 0 + b.length := by
    simpa using Nat.not_lt.mpr hlen
  simp only [ubiLebRead, findVol_ne_nil hv2, if_false, hv2, hl2, hlk2,
    lebDataRead, hbl, hp1, hp0, hp01, or_self, false_or, hbnd]
  rw [show lebDataOff ebs p0 + 0 = lebDataOff ebs p0 from rfl]
  rw [readBytes_of_agree hagree]

/-- C5: on a device with a registered volume, an lnum the guard accepts, a
non-empty buffer within LEB_MAX and a non-empty free pool (whose entries are
usable PEB indices, with a readable EC header behind any existing mapping of
lnum), a successful ubi_leb_write followed by ubi_leb_read of the same length
at offset 0 returns exactly the written bytes, for every length including
those that are not multiples of the 16-byte write alignment (the data
adapter pads the staged tail). -/
theorem c5_write_read_roundtrip :
    ∀ (nr ebs : Nat) (st : DeviceState) (media : Media) (vol_id lnum : Nat)
      (b : List Nat) (v : Volume) (k0 p0 : Nat) (rest : List (Nat × Nat)),
      findVol vol_id st.vols = some v →
      lnum ≤ v.cfg.leb_count →
      (v.eba.map Prod.fst).Nodup →
      st.free_pebs = (k0, p0) :: rest →
      ¬ nr < p0 → p0 ≠ 0 → p0 ≠ 1 →
      b ≠ [] → b.length ≤ lebMax ebs →
      (∀ p_old, lookupKey lnum v.eba = some p_old →
        (¬ nr < p_old ∧ p_old ≠ 0 ∧ p_old ≠ 1) ∧
          ∃ ec_old, (media.peb p_old).ec = some ec_old) →
      ∃ st2 media2,
        ubiLebWrite nr ebs ⟨false, false⟩ st media vol_id lnum (some b) =
          (st2, media2, 0) ∧
        ubiLebRead nr ebs st2 media2 vol_id lnum 0 b.length = (0, b) := by
  intro nr ebs st media vol_id lnum b v k0 p0 rest hv hlnum hdup hfree hp1 hp0 hp01
    hb hblen hold
  have hl : ¬ lnum > v.cfg.leb_count := Nat.not_lt.mpr hlnum
  have hfree_len : st.free_pebs.length ≠ 0 := by rw [hfree]; simp
  have hlen' : ¬ bufLen (some b) > lebMax ebs := by
    simpa [bufLen] using Nat.not_lt.mpr hblen
  have hbl : b.length ≠ 0 := by simpa using hb
  have hwrap : ubiLebWrite nr ebs ⟨false, false⟩ st media vol_id lnum (some b) =
      lebWrite nr ebs ⟨false, false⟩ st media vol_id lnum (some b) := by
    simp [ubiLebWrite, hbl]
  have hdw := lebDataWrite_spec nr ebs
    (vidSet media p0
      { lnum := lnum, vol_id := vol_id, sqnum := st.global_seqnr,
        data_size := bufLen (some b) })
    p0 b hb hp1 hp0 hp01 hblen
  have hmem2 := hdw.2.2
  cases hlk : lookupKey lnum v.eba with
  | none =>
    have heq := lebWrite_eq_alloc_nomap nr ebs ⟨false, false⟩ st media vol_id lnum
      v (some b) hv hl hfree_len hlen' hlk
    have hspec := lebWriteAlloc_spec nr ebs st media vol_id lnum k0 p0 rest
      (some b) hfree hp1 hp0 hp01 (Or.inr ⟨b, rfl, hb, hblen⟩)
    refine ⟨_, _, by rw [hwrap, heq, hspec], ?_⟩
    have hv2 : findVol vol_id
        (updateVol vol_id
          (fun w => { w with eba := insertSorted (lnum, p0) w.eba }) st.vols) =
        some { v with eba := insertSorted (lnum, p0) v.eba } :=
      findVol_updateVol_some vol_id
        (fun w => { w with eba := insertSorted (lnum, p0) w.eba }) (fun w => rfl) hv
    exact read_after_agree nr ebs _ _ vol_id lnum p0 b
      { v with eba := insertSorted (lnum, p0) v.eba }
      hv2 hl (lookupKey_insertSorted_self hlk) hp1 hp0 hp01 hb hblen hmem2
  | some p_old =>
    obtain ⟨⟨hpo1, hpo0, hpo01⟩, ec_old, hec⟩ := hold p_old hlk
    have heq := lebWrite_eq_alloc_remap nr ebs ⟨false, false⟩ st media vol_id lnum
      p_old ec_old v (some b) hv hl hfree_len hlen' hlk hpo1 hpo0 hpo01 hec
    have hspec := lebWriteAlloc_spec nr ebs
      { st with
        vols := updateVol vol_id
          (fun w => { w with eba := eraseKey lnum w.eba }) st.vols
        dirty_pebs := insertSorted (ec_old, p_old) st.dirty_pebs }
      media vol_id lnum k0 p0 rest (some b)
      hfree hp1 hp0 hp01 (Or.inr ⟨b, rfl, hb, hblen⟩)
    refine ⟨_, _, by rw [hwrap, heq, hspec], ?_⟩
    have hv2 := findVol_updateVol_some vol_id
      (fun w => { w with eba := insertSorted (lnum, p0) w.eba }) (fun w => rfl)
      (findVol_updateVol_some vol_id
        (fun w => { w with eba := eraseKey lnum w.eba }) (fun w => rfl) hv)
    have hlk2 : lookupKey lnum (insertSorted (lnum, p0) (eraseKey lnum v.eba)) =
        some p0 :=
      lookupKey_insertSorted_self
        (lookupKey_eraseKey_of_nodup hdup (by rw [hlk]; rfl))
    exact read_after_agree nr ebs _ _ vol_id lnum p0 b
      { v with eba := insertSorted (lnum, p0) (eraseKey lnum v.eba) }
      hv2 hl hlk2 hp1 hp0 hp01 hb hblen hmem2

/-- Witness for C5: a 3-byte write (not 16-aligned, exercising the padded
tail) to LEB 0 of the one-LEB volume of exSt1 followed by a 3-byte read
returns the written bytes. -/
theorem c5_write_read_witness :
    ∃ st2 media2,
      ubiLebWrite 4 64 ⟨false, false⟩ exSt1 exMediaErased 0 0 (some [10, 20, 30]) =
        (st2, media2, 0) ∧
      ubiLebRead 4 64 st2 media2 0 0 0 [10, 20, 30].length = (0, [10, 20, 30]) :=
  c5_write_read_roundtrip 4 64 exSt1 exMediaErased 0 0 [10, 20, 30] exVol1 0 2 []
    rfl (by decide) (by decide) rfl (by decide) (by decide) (by decide)
    (by decide) (by decide)
    (by intro p_old h; simp [exVol1, lookupKey] at h)

/-- Witness for C10: on media whose mapped PEB records data_size 0, a read of
8 bytes at offset 4 (far past the recorded size) succeeds, and a read whose
end passes LEB_MAX = 16 is refused with -ENOSPC. -/
theorem c10_read_witness :
    ubiLebRead 4 64 exStMapped exMediaDup 0 0 4 8 =
      (0, readBytes exMediaDup.mem (lebDataOff 64 2 + 4) 8) ∧
    ubiLebRead 4 64 exStMapped exMediaDup 0 0 10 7 = (retEnospc, []) := by
  constructor
  · exact (c10_read_ignores_data_size 4 64 exStMapped exMediaDup 0 0 4 8 2
      exVolMapped { lnum := 0, vol_id := 0, sqnum := 0, data_size := 0 }
      rfl (by decide) rfl (by decide) (by decide) (by decide) rfl
      (by decide)).1 (by decide)
  · exact (c10_read_ignores_data_size 4 64 exStMapped exMediaDup 0 0 10 7 2
      exVolMapped { lnum := 0, vol_id := 0, sqnum := 0, data_size := 0 }
      rfl (by decide) rfl (by decide) (by decide) (by decide) rfl
      (by decide)).2 (by decide)

end Ubi
